import Mathlib

/-!
Shallow embedding of the core of `github-analytics` (Go), for checking its
natural-language specification against the code.

Source files embedded here:
  * `domain/activity.go`, `domain/statistics.go` — the data model;
  * `application/statistics_service.go` — the statistics aggregation engine;
  * `infrastructure/github_data_fetcher.go` — the paginated fetch orchestrator;
  * `infrastructure/github_client.go` — the rate-limited API gateway.

Modelling conventions:
  * Go `time.Time` is abstracted as a pair of its nanosecond instant
    (used by `Before`/`After`/`Sub`) and its calendar year (`Year()`).
    A real `time.Time` determines the year from the instant; where a proof
    needs that consistency it is taken as an explicit hypothesis
    (two activities with the same instant have the same date value).
  * Go `int` is modelled as `Int` (counts as `Nat` where the source only
    ever increments from zero); no claim exercises 64-bit overflow.
  * Go `float64` division (the PR-to-review ratios) is modelled exactly as
    `Rat`; the only float operations in the source are a single division of
    two small integer counts and comparisons against 0.5 / 1.0 / 2.0.
  * Go maps are modelled as association lists in key-insertion order.
    Go's randomized iteration order only feeds (a) computations that sort
    afterwards, (b) order-insensitive folds; every theorem that depends on
    an iteration order is stated so that it holds for the orders' common
    outcome.
-/

namespace GithubAnalytics

/-- `domain.ActivityType` (`domain/activity.go`). -/
inductive ActivityType where
  | commit
  | pr
  | issue
  | review
  | prMerge
  deriving DecidableEq, Repr

/-- Abstraction of Go `time.Time`: the nanosecond instant (compared by
`Before`/`After`, subtracted by `Sub`) together with the calendar year
returned by `Year()`. -/
structure GoTime where
  instant : Int
  year : Int
  deriving DecidableEq, Repr

/-- `domain.Activity` (`domain/activity.go`). -/
structure Activity where
  type : ActivityType
  repository : String
  date : GoTime
  additions : Int
  deletions : Int
  isMerged : Bool
  isReview : Bool
  deriving DecidableEq, Repr

/-- `domain.NewActivity` (`domain/activity.go`): `IsMerged`/`IsReview`
start at their zero value `false`. -/
def NewActivity (activityType : ActivityType) (repo : String) (date : GoTime)
    (additions deletions : Int) : Activity :=
  { type := activityType, repository := repo, date := date,
    additions := additions, deletions := deletions,
    isMerged := false, isReview := false }

/-- `domain.RepositoryActivity` (`domain/activity.go`). -/
structure RepositoryActivity where
  repository : String
  commitCount : Nat
  prCount : Nat
  issueCount : Nat
  reviewCount : Nat
  totalAdditions : Int
  totalDeletions : Int
  firstActivity : GoTime
  lastActivity : GoTime
  deriving DecidableEq, Repr

/-- `domain.YearlyStatistics` (`domain/statistics.go`). -/
structure YearlyStatistics where
  year : Int
  commitCount : Nat
  prCreated : Nat
  prMerged : Nat
  issueCount : Nat
  reviewCount : Nat
  totalAdditions : Int
  totalDeletions : Int
  deriving DecidableEq, Repr

/-- `domain.NewYearlyStatistics` (`domain/statistics.go`): all counters at
their Go zero value. -/
def NewYearlyStatistics (year : Int) : YearlyStatistics :=
  { year := year, commitCount := 0, prCreated := 0, prMerged := 0,
    issueCount := 0, reviewCount := 0, totalAdditions := 0, totalDeletions := 0 }

/-- `domain.RoleTransitionPoint` (`domain/statistics.go`); `Ratio` is a Go
`float64`, modelled exactly as `Rat`. -/
structure RoleTransitionPoint where
  year : Int
  prCreated : Nat
  reviewCount : Nat
  ratio : Rat
  description : String
  deriving DecidableEq, Repr

/-- `infrastructure.UserActivityData` (`infrastructure/github_data_fetcher.go`),
minus the `User` pointer, which no statistics pass reads. -/
structure UserActivityData where
  commits : List Activity
  prs : List Activity
  issues : List Activity
  reviews : List Activity
  deriving DecidableEq, Repr

/-- `domain.UserStatistics` (`domain/statistics.go`), minus the `User`
pointer. `YearlyStats` is `map[int]*YearlyStatistics`, modelled as an
association list in key-insertion order. -/
structure UserStatistics where
  totalCommits : Nat
  totalPRCreated : Nat
  totalPRMerged : Nat
  totalIssues : Nat
  totalReviews : Nat
  totalAdditions : Int
  totalDeletions : Int
  firstActivityYear : Int
  peakActivityYear : Int
  peakActivityCommits : Nat
  yearlyStats : List (Int × YearlyStatistics)
  topRepositories : List RepositoryActivity
  longTermRepositories : List RepositoryActivity
  prToReviewRatio : Rat
  roleTransition : List RoleTransitionPoint
  deriving DecidableEq, Repr

/-- `domain.NewUserStatistics` (`domain/statistics.go`): collections empty,
every numeric field at its Go zero value. -/
def NewUserStatistics : UserStatistics :=
  { totalCommits := 0, totalPRCreated := 0, totalPRMerged := 0,
    totalIssues := 0, totalReviews := 0, totalAdditions := 0,
    totalDeletions := 0, firstActivityYear := 0, peakActivityYear := 0,
    peakActivityCommits := 0, yearlyStats := [], topRepositories := [],
    longTermRepositories := [], prToReviewRatio := 0, roleTransition := [] }

/-! ### Go map model: association lists in key-insertion order -/

/-- `m[k]`, with `v0` the Go zero value returned for an absent key. -/
def mapGetD {K V : Type} [DecidableEq K] (m : List (K × V)) (k : K) (v0 : V) : V :=
  match m with
  | [] => v0
  | (k', v) :: t => if k = k' then v else mapGetD t k v0

/-- `m[k] = f(m[k])` for a Go map: updates the entry in place, or appends a
fresh entry `(k, f v0)` when `k` is absent (`v0` is the Go zero value). -/
def mapUpd {K V : Type} [DecidableEq K] (m : List (K × V)) (k : K) (f : V → V) (v0 : V) :
    List (K × V) :=
  match m with
  | [] => [(k, f v0)]
  | (k', v) :: t => if k = k' then (k', f v) :: t else (k', v) :: mapUpd t k f v0

/-- The keys of a Go-map model, in insertion order. -/
def mapKeys {K V : Type} (m : List (K × V)) : List K :=
  m.map (·.1)

theorem mapGetD_mapUpd {K V : Type} [DecidableEq K]
    (m : List (K × V)) (k k' : K) (f : V → V) (v0 : V) :
    mapGetD (mapUpd m k f v0) k' v0 =
      if k' = k then f (mapGetD m k v0) else mapGetD m k' v0 := by
  induction m with
  | nil =>
    by_cases h : k' = k <;> simp [mapUpd, mapGetD, h]
  | cons hd t ih =>
    obtain ⟨k₁, v₁⟩ := hd
    by_cases hk : k = k₁
    · subst hk
      by_cases h' : k' = k <;> simp [mapUpd, mapGetD, h']
    · by_cases h₁ : k' = k₁
      · subst h₁
        have hne : ¬ k' = k := fun h => hk (h ▸ rfl)
        simp [mapUpd, mapGetD, hk, hne]
      · simp [mapUpd, mapGetD, hk, h₁, ih]

theorem mapKeys_mapUpd {K V : Type} [DecidableEq K]
    (m : List (K × V)) (k : K) (f : V → V) (v0 : V) :
    mapKeys (mapUpd m k f v0) =
      if k ∈ mapKeys m then mapKeys m else mapKeys m ++ [k] := by
  induction m with
  | nil => simp [mapUpd, mapKeys]
  | cons hd t ih =>
    obtain ⟨k₁, v₁⟩ := hd
    by_cases hk : k = k₁
    · subst hk
      simp [mapUpd, mapKeys]
    · by_cases hmem : k ∈ mapKeys t
      · simp only [mapKeys, List.map_cons] at ih ⊢
        simp only [mapUpd, if_neg hk, List.map_cons]
        simp only [mapKeys] at hmem
        simp only [hmem, if_true] at ih
        simp [hmem, ih]
      · simp only [mapKeys, List.map_cons] at ih ⊢
        simp only [mapUpd, if_neg hk, List.map_cons]
        simp only [mapKeys] at hmem
        simp only [hmem, if_false] at ih
        simp [List.mem_cons, hmem, hk, ih]

theorem mem_mapKeys_mapUpd {K V : Type} [DecidableEq K]
    (m : List (K × V)) (k k' : K) (f : V → V) (v0 : V) :
    k' ∈ mapKeys (mapUpd m k f v0) ↔ k' ∈ mapKeys m ∨ k' = k := by
  rw [mapKeys_mapUpd]
  by_cases h : k ∈ mapKeys m
  · simp only [h, if_true]
    constructor
    · exact fun hm => Or.inl hm
    · rintro (hm | rfl)
      · exact hm
      · exact h
  · simp [h]

theorem mapKeys_nodup_mapUpd {K V : Type} [DecidableEq K]
    (m : List (K × V)) (k : K) (f : V → V) (v0 : V)
    (h : (mapKeys m).Nodup) : (mapKeys (mapUpd m k f v0)).Nodup := by
  rw [mapKeys_mapUpd]
  by_cases hk : k ∈ mapKeys m
  · simpa [hk] using h
  · simpa [hk, List.nodup_append] using h

/-! ### `application/statistics_service.go` — the statistics aggregation engine -/

/-- `Date.Before` on the instant. -/
def GoTime.before (a b : GoTime) : Bool :=
  a.instant < b.instant

/-- `Date.After` on the instant. -/
def GoTime.after (a b : GoTime) : Bool :=
  b.instant < a.instant

/-- `CalculateStatistics`: `allActivities` is commits, PRs, issues, reviews
appended in that order. -/
def allActivitiesOf (data : UserActivityData) : List Activity :=
  data.commits ++ data.prs ++ data.issues ++ data.reviews

/-- `UserStatistics.CalculatePRToReviewRatio` (`domain/statistics.go`): sets
the ratio only when `TotalPRCreated > 0`; otherwise it keeps its zero value. -/
def CalculatePRToReviewRatio (stats : UserStatistics) : UserStatistics :=
  if 0 < stats.totalPRCreated then
    { stats with prToReviewRatio := (stats.totalReviews : Rat) / (stats.totalPRCreated : Rat) }
  else
    stats

/-- The scan in `calculateBasicStatistics` that finds the earliest activity:
start from `allActivities[0]`, replace whenever `activity.Date.Before(first)`. -/
def firstActivityScan (init : Activity) (l : List Activity) : Activity :=
  l.foldl (fun first activity => if activity.date.before first.date then activity else first) init

/-- The body of the PR loop in `calculateBasicStatistics`
(`statistics_service.go` lines 60-67). -/
def prTotalsStep (st : UserStatistics) (pr : Activity) : UserStatistics :=
  let st := if pr.isMerged then { st with totalPRMerged := st.totalPRMerged + 1 } else st
  { st with totalAdditions := st.totalAdditions + pr.additions,
            totalDeletions := st.totalDeletions + pr.deletions }

/-- The body of the commit loop in `calculateBasicStatistics`
(`statistics_service.go` lines 70-73). -/
def commitLinesStep (st : UserStatistics) (commit : Activity) : UserStatistics :=
  { st with totalAdditions := st.totalAdditions + commit.additions,
            totalDeletions := st.totalDeletions + commit.deletions }

/-- `calculateBasicStatistics` (`statistics_service.go` lines 49-88). -/
def calculateBasicStatistics (stats : UserStatistics) (allActivities : List Activity)
    (data : UserActivityData) : UserStatistics :=
  let stats := { stats with
    totalCommits := data.commits.length
    totalPRCreated := data.prs.length
    totalIssues := data.issues.length
    totalReviews := data.reviews.length }
  let stats := data.prs.foldl prTotalsStep stats
  let stats := data.commits.foldl commitLinesStep stats
  let stats :=
    match allActivities with
    | [] => stats
    | a :: _ =>
      { stats with firstActivityYear := (firstActivityScan a allActivities).date.year }
  CalculatePRToReviewRatio stats

/-- The seven per-year maps built by `aggregateYearlyData`
(`statistics_service.go` lines 91-134). -/
structure YearlyMaps where
  yearlyCommits : List (Int × Nat)
  yearlyPRCreated : List (Int × Nat)
  yearlyPRMerged : List (Int × Nat)
  yearlyIssues : List (Int × Nat)
  yearlyReviews : List (Int × Nat)
  yearlyAdditions : List (Int × Int)
  yearlyDeletions : List (Int × Int)

/-- `m[key]++` for a Go `map[int]int` used as a counter. -/
def bumpYear (m : List (Int × Nat)) (year : Int) : List (Int × Nat) :=
  mapUpd m year (· + 1) 0

/-- `aggregateYearlyData` (`statistics_service.go` lines 91-134). -/
def aggregateYearlyData (data : UserActivityData) (allActivities : List Activity) : YearlyMaps :=
  { yearlyCommits := data.commits.foldl (fun m commit => bumpYear m commit.date.year) []
    yearlyPRCreated := data.prs.foldl (fun m pr => bumpYear m pr.date.year) []
    yearlyPRMerged := data.prs.foldl
      (fun m pr => if pr.isMerged then bumpYear m pr.date.year else m) []
    yearlyIssues := data.issues.foldl (fun m issue => bumpYear m issue.date.year) []
    yearlyReviews := data.reviews.foldl (fun m review => bumpYear m review.date.year) []
    yearlyAdditions := allActivities.foldl
      (fun m activity => mapUpd m activity.date.year (· + activity.additions) 0) []
    yearlyDeletions := allActivities.foldl
      (fun m activity => mapUpd m activity.date.year (· + activity.deletions) 0) [] }

/-- `collectAllYears` (`statistics_service.go` lines 137-158): the union of
the key sets of the commit, PR-created, issue and review maps (the
`map[int]bool` set is modelled as a duplicate-free list in insertion
order). -/
def collectAllYears (maps : YearlyMaps) : List Int :=
  (mapKeys maps.yearlyCommits ++ mapKeys maps.yearlyPRCreated ++
      mapKeys maps.yearlyIssues ++ mapKeys maps.yearlyReviews).foldl
    (fun acc y => if y ∈ acc then acc else acc ++ [y]) []

/-- `buildYearlyStats` (`statistics_service.go` lines 161-177): one
`YearlyStatistics` entry per collected year, each counter read from its map
(Go zero value `0` when absent). -/
def buildYearlyStats (years : List Int) (maps : YearlyMaps) : List (Int × YearlyStatistics) :=
  years.map (fun year =>
    (year,
      { year := year
        commitCount := mapGetD maps.yearlyCommits year 0
        prCreated := mapGetD maps.yearlyPRCreated year 0
        prMerged := mapGetD maps.yearlyPRMerged year 0
        issueCount := mapGetD maps.yearlyIssues year 0
        reviewCount := mapGetD maps.yearlyReviews year 0
        totalAdditions := mapGetD maps.yearlyAdditions year 0
        totalDeletions := mapGetD maps.yearlyDeletions year 0 }))

/-- `calculatePeakYear` (`statistics_service.go` lines 180-189): scan the
yearly map with `maxCommits` starting at 0, updating the peak fields only on
a strict `>`. -/
def peakStep (acc : Nat × UserStatistics) (e : Int × YearlyStatistics) :
    Nat × UserStatistics :=
  if e.2.commitCount > acc.1 then
    (e.2.commitCount,
      { acc.2 with peakActivityYear := e.1, peakActivityCommits := e.2.commitCount })
  else acc

/-- `calculatePeakYear`, continued: the scan itself. -/
def calculatePeakYear (stats : UserStatistics) : UserStatistics :=
  (stats.yearlyStats.foldl peakStep (0, stats)).2

/-- `calculateYearlyStatistics` (`statistics_service.go` lines 192-205). -/
def calculateYearlyStatistics (stats : UserStatistics) (allActivities : List Activity)
    (data : UserActivityData) : UserStatistics :=
  let maps := aggregateYearlyData data allActivities
  let years := collectAllYears maps
  let stats := { stats with yearlyStats := buildYearlyStats years maps }
  calculatePeakYear stats

/-- `domain.NewRepositoryActivity` plus the explicit `FirstActivity` /
`LastActivity` initialization done in `aggregateRepositoryActivities` for a
repository seen for the first time. -/
def newRepoEntry (repo : String) (date : GoTime) : RepositoryActivity :=
  { repository := repo, commitCount := 0, prCount := 0, issueCount := 0,
    reviewCount := 0, totalAdditions := 0, totalDeletions := 0,
    firstActivity := date, lastActivity := date }

/-- The body of the fold in `aggregateRepositoryActivities`
(`statistics_service.go` lines 220-240): bump the counter of the activity's
type (no case for `pr_merge`), add the line totals, widen first/last. -/
def foldActivityIntoRepo (repo : RepositoryActivity) (activity : Activity) :
    RepositoryActivity :=
  let repo :=
    match activity.type with
    | .commit => { repo with commitCount := repo.commitCount + 1 }
    | .pr => { repo with prCount := repo.prCount + 1 }
    | .issue => { repo with issueCount := repo.issueCount + 1 }
    | .review => { repo with reviewCount := repo.reviewCount + 1 }
    | .prMerge => repo
  let repo := { repo with
    totalAdditions := repo.totalAdditions + activity.additions,
    totalDeletions := repo.totalDeletions + activity.deletions }
  let repo :=
    if activity.date.before repo.firstActivity then
      { repo with firstActivity := activity.date }
    else repo
  if activity.date.after repo.lastActivity then
    { repo with lastActivity := activity.date }
  else repo

/-- One iteration of the loop in `aggregateRepositoryActivities`: look the
repository up (creating it, first/last initialized to this activity's date,
when absent) and fold the activity in. -/
def repoStep (repoMap : List (String × RepositoryActivity)) (activity : Activity) :
    List (String × RepositoryActivity) :=
  mapUpd repoMap activity.repository (fun r => foldActivityIntoRepo r activity)
    (newRepoEntry activity.repository activity.date)

/-- `aggregateRepositoryActivities` (`statistics_service.go` lines 208-244). -/
def aggregateRepositoryActivities (allActivities : List Activity) :
    List (String × RepositoryActivity) :=
  allActivities.foldl repoStep []

/-- `selectTopRepositories` (`statistics_service.go` lines 247-263):
sort by commit count descending, keep at most 3. Go's `sort.Slice` is an
unspecified (unstable) comparison sort; it is modelled by a sort whose
output is ordered by the same comparator. -/
def selectTopRepositories (repoMap : List (String × RepositoryActivity)) :
    List RepositoryActivity :=
  let repos := List.insertionSort
    (fun a b : RepositoryActivity => b.commitCount ≤ a.commitCount) (repoMap.map (·.2))
  repos.take 3

/-- `oneYear = 365 * 24 * time.Hour` in nanoseconds
(`statistics_service.go` line 267). -/
def oneYearNs : Int := 365 * 24 * 60 * 60 * 1000000000

/-- `repo.LastActivity.Sub(repo.FirstActivity)` in nanoseconds. -/
def repoTenure (repo : RepositoryActivity) : Int :=
  repo.lastActivity.instant - repo.firstActivity.instant

/-- `findLongTermRepositories` (`statistics_service.go` lines 266-286):
filter the given repositories by tenure `>= oneYear`, sort by tenure
descending. -/
def findLongTermRepositories (repos : List RepositoryActivity) : List RepositoryActivity :=
  let longTermRepos := repos.filter (fun repo => decide (oneYearNs ≤ repoTenure repo))
  List.insertionSort (fun a b : RepositoryActivity => repoTenure b ≤ repoTenure a) longTermRepos

/-- `calculateRepositoryStatistics` (`statistics_service.go` lines 289-296):
`LongTermRepositories` is computed from `TopRepositories`. -/
def calculateRepositoryStatistics (stats : UserStatistics) (allActivities : List Activity) :
    UserStatistics :=
  let repoMap := aggregateRepositoryActivities allActivities
  let top := selectTopRepositories repoMap
  { stats with topRepositories := top, longTermRepositories := findLongTermRepositories top }

/-- `generateRoleDescriptionForNoActivity` (`statistics_service.go`
lines 329-343). -/
def generateRoleDescriptionForNoActivity (prCreated reviewCount : Nat) :
    Option String :=
  if prCreated = 0 ∧ reviewCount = 0 then some "活動なし"
  else if prCreated = 0 ∧ 0 < reviewCount then some "レビュー中心の活動"
  else if 0 < prCreated ∧ reviewCount = 0 then some "開発中心の活動"
  else none

/-- `generateRoleDescriptionByRatio` (`statistics_service.go` lines 346-363),
thresholds 0.5 / 1.0 / 2.0. -/
def generateRoleDescriptionByRatio (ratio : Rat) : String :=
  if ratio < (1 : Rat) / 2 then "開発中心、レビューも実施"
  else if ratio < 1 then "開発とレビューのバランス"
  else if ratio < 2 then "レビュー重視の活動"
  else "レビュー中心、チーム品質向上に貢献"

/-- `generateRoleDescription` (`statistics_service.go` lines 366-372). -/
def generateRoleDescription (prCreated reviewCount : Nat) (ratio : Rat) : String :=
  match generateRoleDescriptionForNoActivity prCreated reviewCount with
  | some desc => desc
  | none => generateRoleDescriptionByRatio ratio

/-- `analyzeContinuityAndCareer` (`statistics_service.go` lines 299-326):
sort the yearly-map keys ascending, emit one `RoleTransitionPoint` per year;
`ratio` is `float64(ReviewCount)/float64(PRCreated)` when `PRCreated > 0`,
otherwise it keeps its zero value. -/
def roleTransitionPointOfYear (yearlyStats : List (Int × YearlyStatistics)) (year : Int) :
    RoleTransitionPoint :=
  let yearlyStat := mapGetD yearlyStats year (NewYearlyStatistics year)
  let ratio : Rat :=
    if 0 < yearlyStat.prCreated then
      (yearlyStat.reviewCount : Rat) / (yearlyStat.prCreated : Rat)
    else 0
  { year := year
    prCreated := yearlyStat.prCreated
    reviewCount := yearlyStat.reviewCount
    ratio := ratio
    description := generateRoleDescription yearlyStat.prCreated yearlyStat.reviewCount ratio }

/-- The loop body of `analyzeContinuityAndCareer`, split out: the points
appended for the sorted years. -/
def roleTransitionPoints (yearlyStats : List (Int × YearlyStatistics)) :
    List RoleTransitionPoint :=
  (List.insertionSort (fun a b : Int => a ≤ b) (mapKeys yearlyStats)).map
    (roleTransitionPointOfYear yearlyStats)

/-- `analyzeContinuityAndCareer`, continued: append one point per sorted
year to `stats.RoleTransition`. -/
def analyzeContinuityAndCareer (stats : UserStatistics) : UserStatistics :=
  { stats with roleTransition := stats.roleTransition ++ roleTransitionPoints stats.yearlyStats }

/-- `StatisticsService.CalculateStatistics` (`statistics_service.go`
lines 23-46): the four passes in source order. -/
def CalculateStatistics (data : UserActivityData) : UserStatistics :=
  let stats := NewUserStatistics
  let allActivities := allActivitiesOf data
  let stats := calculateBasicStatistics stats allActivities data
  let stats := calculateYearlyStatistics stats allActivities data
  let stats := calculateRepositoryStatistics stats allActivities
  analyzeContinuityAndCareer stats

/-! ### `infrastructure/github_data_fetcher.go` — the paginated fetch orchestrator

The GraphQL server is modelled as the data it would serve: a connection is a
list of pages, and the `after` cursor of page `i` points at page `i + 1`.
Each page carries the `PageInfo.HasNextPage` flag the server reports for it;
a well-behaved server reports `true` exactly when a further page exists. -/

/-- One node of the `pullRequests` connection (the fields the code reads). -/
structure PRNode where
  repository : String
  createdAt : GoTime
  mergedAt : Option GoTime
  additions : Int
  deletions : Int
  deriving DecidableEq, Repr

/-- One page of the `pullRequests` connection. -/
structure PRPage where
  nodes : List PRNode
  hasNextPage : Bool
  deriving DecidableEq, Repr

/-- One node of the `issues` connection (the fields the code reads). -/
structure IssueNode where
  repository : String
  createdAt : GoTime
  deriving DecidableEq, Repr

/-- One page of the `issues` connection. -/
structure IssuePage where
  nodes : List IssueNode
  hasNextPage : Bool
  deriving DecidableEq, Repr

/-- The activity built from one `pullRequests` node: `IsMerged` is set when
`MergedAt` is non-nil (`github_data_fetcher.go` lines 223-233). -/
def mkPRActivity (pr : PRNode) : Activity :=
  { NewActivity .pr pr.repository pr.createdAt pr.additions pr.deletions with
    isMerged := pr.mergedAt.isSome }

/-- The activity built from one `issues` node
(`github_data_fetcher.go` lines 282-291). -/
def mkIssueActivity (issue : IssueNode) : Activity :=
  NewActivity .issue issue.repository issue.createdAt 0 0

/-- `FetchPullRequests` (`github_data_fetcher.go` lines 185-244): flat
pagination — append each page's nodes, stop when the server reports no next
page, otherwise continue from the page's end cursor. -/
def FetchPullRequests : List PRPage → List Activity
  | [] => []
  | page :: rest =>
    page.nodes.map mkPRActivity ++
      (if page.hasNextPage then FetchPullRequests rest else [])

/-- `FetchIssues` (`github_data_fetcher.go` lines 247-302): same flat
pagination as `FetchPullRequests`. -/
def FetchIssues : List IssuePage → List Activity
  | [] => []
  | page :: rest =>
    page.nodes.map mkIssueActivity ++
      (if page.hasNextPage then FetchIssues rest else [])

/-- One page of one repository's `contributions` connection inside the
contributions collection. The code reads only `OccurredAt` of each node
(for commits it ignores `Commit.OID`, for reviews `PullRequestReview.State`),
plus `PageInfo`. -/
structure ContribPage where
  occurredAts : List GoTime
  hasNextPage : Bool
  deriving DecidableEq, Repr

/-- One entry of `CommitContributionsByRepository` /
`PullRequestReviewContributionsByRepository` as the server holds it:
the repository name and the full list of pages of that repository's own
`contributions` connection (the response to the top-level query carries only
the head page; the rest are behind the per-repository cursor). -/
structure RepoContributions where
  nameWithOwner : String
  pages : List ContribPage
  deriving DecidableEq, Repr

/-- The first page of a repository's contributions connection — what the
single top-level query returns for that repository. -/
def RepoContributions.firstPage (rc : RepoContributions) : ContribPage :=
  rc.pages.headD { occurredAts := [], hasNextPage := false }

/-- `processCommitContributions` applied to the head pages, i.e.
`FetchCommits` (`github_data_fetcher.go` lines 134-182): one query, then
each repository contributes only the nodes of its first page — the code
comments `ページネーション未実装のため、最初のページのみ取得`
("pagination unimplemented; fetch only the first page") and never reads
`PageInfo` of the contributions connection. -/
def FetchCommits (server : List RepoContributions) : List Activity :=
  server.flatMap (fun rc =>
    rc.firstPage.occurredAts.map (fun t => NewActivity .commit rc.nameWithOwner t 0 0))

/-- The activity built from one review-contribution node
(`github_data_fetcher.go` lines 325-336): `IsReview` is set. -/
def mkReviewActivity (repo : String) (t : GoTime) : Activity :=
  { NewActivity .review repo t 0 0 with isReview := true }

/-- `FetchReviews` (`github_data_fetcher.go` lines 343-391): identical
first-page-only shape as `FetchCommits`, via `processReviewContributions`. -/
def FetchReviews (server : List RepoContributions) : List Activity :=
  server.flatMap (fun rc =>
    rc.firstPage.occurredAts.map (fun t => mkReviewActivity rc.nameWithOwner t))

/-- Modelled from the spec (claim-side reference for C1): walking one
repository's contributions connection to exhaustion — take each page and,
while the server reports has-next-page, continue with the next page behind
the cursor. -/
def walkContributionsToExhaustion : List ContribPage → List GoTime
  | [] => []
  | page :: rest =>
    page.occurredAts ++
      (if page.hasNextPage then walkContributionsToExhaustion rest else [])

/-- Modelled from the spec (claim-side reference for C1): a commit fetch in
which every repository whose first page reports has-next-page has its own
cursor walked until exhausted, so the activity list contains every page. -/
def fetchCommitsSpecExhaustive (server : List RepoContributions) : List Activity :=
  server.flatMap (fun rc =>
    (walkContributionsToExhaustion rc.pages).map
      (fun t => NewActivity .commit rc.nameWithOwner t 0 0))

/-- A flat connection is served well-formed when each page's
`hasNextPage` flag is true exactly when a further page exists. -/
def flatPRWellFormed : List PRPage → Bool
  | [] => true
  | page :: rest => (page.hasNextPage == !rest.isEmpty) && flatPRWellFormed rest

/-- Well-formedness of a served `issues` connection. -/
def flatIssueWellFormed : List IssuePage → Bool
  | [] => true
  | page :: rest => (page.hasNextPage == !rest.isEmpty) && flatIssueWellFormed rest

/-- Modelled from the spec (claim-side reference for C1): the analogous
exhaustive walk for the review-contribution categories. -/
def fetchReviewsSpecExhaustive (server : List RepoContributions) : List Activity :=
  server.flatMap (fun rc =>
    (walkContributionsToExhaustion rc.pages).map
      (fun t => mkReviewActivity rc.nameWithOwner t))

/-! #### `FetchAllUserActivity` (`github_data_fetcher.go` lines 34-91)

The body of the single spawned goroutine runs the four category fetches one
after another and sends one combined record on a one-slot channel; the
parent receives that single record. Each fetch's outcome is modelled as an
`Except`: `error` is the non-nil wrapped error, and on error the returned
slice is Go's `nil`, modelled as `[]`. -/

/-- The error of one category fetch outcome, if any. -/
def errOf : Except String (List Activity) → Option String
  | .error e => some e
  | .ok _ => none

/-- The activity slice of one category fetch outcome (`nil` on error). -/
def listOf : Except String (List Activity) → List Activity
  | .error _ => []
  | .ok l => l

/-- `FetchAllUserActivity` (`github_data_fetcher.go` lines 34-91) given the
four category outcomes: `err := err1; if err == nil { err = err2 }; ...`,
then either the error or the combined `UserActivityData` is returned. -/
def FetchAllUserActivity (rc rp ri rr : Except String (List Activity)) :
    Except String UserActivityData :=
  let err := errOf rc
  let err := match err with | some e => some e | none => errOf rp
  let err := match err with | some e => some e | none => errOf ri
  let err := match err with | some e => some e | none => errOf rr
  match err with
  | some e => .error e
  | none => .ok { commits := listOf rc, prs := listOf rp, issues := listOf ri,
                  reviews := listOf rr }

/-- A category fetch outcome together with the instant the fetch would
complete, for comparing against the spec's concurrent-join wording. -/
structure TimedFetchOutcome where
  result : Except String (List Activity)
  completedAt : Int

/-- Modelled from the spec (claim-side reference for C2): with the four
category fetches running as concurrent tasks joined on one channel, "the
first error encountered" is the error of the earliest-completing failing
fetch. -/
def specFirstErrorEncountered (outcomes : List TimedFetchOutcome) : Option String :=
  let failing := outcomes.filter (fun o => (errOf o.result).isSome)
  match List.insertionSort (fun a b : TimedFetchOutcome => a.completedAt ≤ b.completedAt)
      failing with
  | [] => none
  | o :: _ => errOf o.result

/-! ### `infrastructure/github_client.go` — the rate-limited API gateway

The blocking operations are modelled on a timeline of instants: the caller's
context is the instant its `Done` channel fires (if ever); the limiter is an
oracle giving, for a wait starting at instant `t`, the instant a token is
granted. A `select` between `ctx.Done()` and a timer resolves to whichever
instant is strictly earlier (a tie is resolved in favour of the timer; Go
picks randomly, and every theorem below avoids relying on ties). -/

/-- A Go `context.Context`, reduced to the instant its cancellation signal
fires (`none`: never). -/
structure GoCtx where
  cancelAt : Option Int
  deriving DecidableEq, Repr

/-- Whether `ctx.Done()` has fired at instant `t`. -/
def GoCtx.doneBy (ctx : GoCtx) (t : Int) : Bool :=
  match ctx.cancelAt with
  | some a => a ≤ t
  | none => false

/-- The errors `WaitForRateLimit` / `Query` produce: `contextCancelled`
wraps `ctx.Err()` as `"context cancelled: %w"`, `rateLimiterWait` wraps the
limiter's context error as `"rate limiter wait failed: %w"`, `graphql`
wraps a transport failure as `"graphql query failed: %w"`. -/
inductive ClientError where
  | contextCancelled : ClientError
  | rateLimiterWait : ClientError
  | graphql : String → ClientError
  deriving DecidableEq, Repr

/-- The two error shapes that wrap the caller's cancellation. -/
def ClientError.isCancellation : ClientError → Bool
  | .contextCancelled => true
  | .rateLimiterWait => true
  | .graphql _ => false

/-- `rate.Limiter.Wait(ctx)` (`golang.org/x/time/rate`, the library the
gateway delegates token acquisition to): fails when the context is already
done, or when the cancellation fires strictly before the token is granted;
otherwise completes at the grant instant. -/
def limiterWait (ctx : GoCtx) (t : Int) (tokenGrantedAt : Int → Int) :
    Except ClientError Int :=
  if ctx.doneBy t then .error .rateLimiterWait
  else
    match ctx.cancelAt with
    | some a =>
      if a < tokenGrantedAt t then .error .rateLimiterWait
      else .ok (tokenGrantedAt t)
    | none => .ok (tokenGrantedAt t)

/-- `WaitForRateLimit` (`github_client.go` lines 52-71): when a recorded
reset deadline lies ahead (`!lastRateLimitReset.IsZero() &&
time.Now().Before(lastRateLimitReset)`), `select` between `ctx.Done()` and
a timer for the deadline; then delegate to `limiter.Wait(ctx)`. On success
the result is the instant the wait completed. -/
def WaitForRateLimit (ctx : GoCtx) (now : Int) (lastRateLimitReset : Option Int)
    (tokenGrantedAt : Int → Int) : Except ClientError Int :=
  match lastRateLimitReset with
  | some resetAt =>
    if now < resetAt then
      match ctx.cancelAt with
      | some a =>
        if a < resetAt then .error .contextCancelled
        else limiterWait ctx resetAt tokenGrantedAt
      | none => limiterWait ctx resetAt tokenGrantedAt
    else limiterWait ctx now tokenGrantedAt
  | none => limiterWait ctx now tokenGrantedAt

/-- The outcome of `Query`: its return value plus whether the underlying
network call (`c.client.Query`) was performed. -/
structure QueryOutcome where
  result : Except ClientError Int
  networkCalled : Bool

/-- `Query` (`github_client.go` lines 74-85): wait for the rate limit; on
wait failure return the wrapped error without touching the network;
otherwise perform the network call at the instant the wait finished and
wrap any transport failure. -/
def Query (ctx : GoCtx) (now : Int) (lastRateLimitReset : Option Int)
    (tokenGrantedAt : Int → Int) (network : Int → Except String Unit) : QueryOutcome :=
  match WaitForRateLimit ctx now lastRateLimitReset tokenGrantedAt with
  | .error e => { result := .error e, networkCalled := false }
  | .ok t =>
    match network t with
    | .error s => { result := .error (.graphql s), networkCalled := true }
    | .ok _ => { result := .ok t, networkCalled := true }

/-- The hypothesis of claim C9, on the model's inputs: the cancellation
signal has fired at call time, or fires while waiting out a recorded reset
deadline that lies ahead, or fires while waiting for the rate limiter. -/
def cancellationFiresDuringWait (ctx : GoCtx) (now : Int)
    (lastRateLimitReset : Option Int) (tokenGrantedAt : Int → Int) : Prop :=
  ∃ a, ctx.cancelAt = some a ∧
    (a ≤ now ∨
      (∃ resetAt, lastRateLimitReset = some resetAt ∧ now < resetAt ∧ a < resetAt) ∨
      (let startAt := match lastRateLimitReset with
        | some resetAt => if now < resetAt then resetAt else now
        | none => now
       a < tokenGrantedAt startAt))

/-! ### Helper lemmas: which fields each pass touches -/

/-- Option-valued Go-map lookup. -/
def mapFind? {K V : Type} [DecidableEq K] (m : List (K × V)) (k : K) : Option V :=
  match m with
  | [] => none
  | (k', v) :: t => if k = k' then some v else mapFind? t k

theorem mapFind?_mapUpd {K V : Type} [DecidableEq K]
    (m : List (K × V)) (k k' : K) (f : V → V) (v0 : V) :
    mapFind? (mapUpd m k f v0) k' =
      if k' = k then some (f ((mapFind? m k).getD v0)) else mapFind? m k' := by
  induction m with
  | nil =>
    by_cases h : k' = k <;> simp [mapUpd, mapFind?, h]
  | cons hd t ih =>
    obtain ⟨k₁, v₁⟩ := hd
    by_cases hk : k = k₁
    · subst hk
      by_cases h' : k' = k <;> simp [mapUpd, mapFind?, h']
    · by_cases h₁ : k' = k₁
      · subst h₁
        have hne : ¬ k' = k := fun h => hk (h ▸ rfl)
        simp [mapUpd, mapFind?, hk, hne]
      · simp [mapUpd, mapFind?, hk, h₁, ih]

theorem mapFind?_eq_some_of_mem {K V : Type} [DecidableEq K]
    {m : List (K × V)} {k : K} {v : V}
    (hnd : (mapKeys m).Nodup) (hmem : (k, v) ∈ m) : mapFind? m k = some v := by
  induction m with
  | nil => cases hmem
  | cons hd t ih =>
    obtain ⟨k₁, v₁⟩ := hd
    rcases List.mem_cons.mp hmem with heq | hmem'
    · cases heq
      simp [mapFind?]
    · have hk : k ≠ k₁ := by
        intro h
        subst h
        have : k ∈ mapKeys t := List.mem_map.mpr ⟨(k, v), hmem', rfl⟩
        simp [mapKeys] at hnd
        exact hnd.1 v (by simpa using hmem')
      have hnd' : (mapKeys t).Nodup := by
        simp [mapKeys] at hnd ⊢
        exact hnd.2
      simp [mapFind?, hk, ih hnd' hmem']

theorem foldl_prTotalsStep_eq (l : List Activity) (st : UserStatistics) :
    l.foldl prTotalsStep st =
      { st with
        totalPRMerged := (l.foldl prTotalsStep st).totalPRMerged,
        totalAdditions := (l.foldl prTotalsStep st).totalAdditions,
        totalDeletions := (l.foldl prTotalsStep st).totalDeletions } := by
  induction l generalizing st with
  | nil => rfl
  | cons a t ih =>
    simp only [List.foldl_cons]
    rw [ih (prTotalsStep st a)]
    by_cases h : a.isMerged <;> simp [prTotalsStep, h]

theorem foldl_commitLinesStep_eq (l : List Activity) (st : UserStatistics) :
    l.foldl commitLinesStep st =
      { st with
        totalAdditions := (l.foldl commitLinesStep st).totalAdditions,
        totalDeletions := (l.foldl commitLinesStep st).totalDeletions } := by
  induction l generalizing st with
  | nil => rfl
  | cons a t ih =>
    simp only [List.foldl_cons]
    rw [ih (commitLinesStep st a)]
    simp [commitLinesStep]

theorem CalculatePRToReviewRatio_eq (st : UserStatistics) :
    CalculatePRToReviewRatio st =
      { st with prToReviewRatio := (CalculatePRToReviewRatio st).prToReviewRatio } := by
  by_cases h : 0 < st.totalPRCreated <;> simp [CalculatePRToReviewRatio, h]

theorem foldl_peakStep_eq (l : List (Int × YearlyStatistics)) (acc : Nat × UserStatistics) :
    (l.foldl peakStep acc).2 =
      { acc.2 with
        peakActivityYear := (l.foldl peakStep acc).2.peakActivityYear,
        peakActivityCommits := (l.foldl peakStep acc).2.peakActivityCommits } := by
  induction l generalizing acc with
  | nil => rfl
  | cons e t ih =>
    simp only [List.foldl_cons]
    rw [ih (peakStep acc e)]
    by_cases h : e.2.commitCount > acc.1 <;> simp [peakStep, h]

/-- Shorthand for the yearly maps the pipeline computes for `data`. -/
def yearlyMapsOf (data : UserActivityData) : YearlyMaps :=
  aggregateYearlyData data (allActivitiesOf data)

/-- Shorthand for the yearly rollup the pipeline computes for `data`. -/
def yearlyStatsOf (data : UserActivityData) : List (Int × YearlyStatistics) :=
  buildYearlyStats (collectAllYears (yearlyMapsOf data)) (yearlyMapsOf data)

theorem calculateBasicStatistics_proj (st : UserStatistics) (all : List Activity)
    (data : UserActivityData) :
    (calculateBasicStatistics st all data).totalCommits = data.commits.length ∧
    (calculateBasicStatistics st all data).totalPRCreated = data.prs.length ∧
    (calculateBasicStatistics st all data).totalIssues = data.issues.length ∧
    (calculateBasicStatistics st all data).totalReviews = data.reviews.length ∧
    (calculateBasicStatistics st all data).yearlyStats = st.yearlyStats ∧
    (calculateBasicStatistics st all data).topRepositories = st.topRepositories ∧
    (calculateBasicStatistics st all data).longTermRepositories = st.longTermRepositories ∧
    (calculateBasicStatistics st all data).roleTransition = st.roleTransition ∧
    (calculateBasicStatistics st all data).peakActivityYear = st.peakActivityYear ∧
    (calculateBasicStatistics st all data).peakActivityCommits = st.peakActivityCommits := by
  unfold calculateBasicStatistics
  rw [CalculatePRToReviewRatio_eq]
  cases all <;>
    (rw [foldl_commitLinesStep_eq, foldl_prTotalsStep_eq]; simp)

theorem calculateBasicStatistics_ratio_of_no_prs (st : UserStatistics) (all : List Activity)
    (data : UserActivityData) (h : data.prs = []) :
    (calculateBasicStatistics st all data).prToReviewRatio = st.prToReviewRatio := by
  unfold calculateBasicStatistics
  rw [h]
  simp only [List.foldl_nil, List.length_nil]
  cases all <;>
    (rw [foldl_commitLinesStep_eq]; simp [CalculatePRToReviewRatio])

theorem calculateYearlyStatistics_eq (st : UserStatistics) (all : List Activity)
    (data : UserActivityData) :
    calculateYearlyStatistics st all data =
      calculatePeakYear
        { st with
          yearlyStats :=
            buildYearlyStats (collectAllYears (aggregateYearlyData data all))
              (aggregateYearlyData data all) } := rfl

theorem calculatePeakYear_proj (st : UserStatistics) :
    (calculatePeakYear st).totalCommits = st.totalCommits ∧
    (calculatePeakYear st).totalPRCreated = st.totalPRCreated ∧
    (calculatePeakYear st).totalReviews = st.totalReviews ∧
    (calculatePeakYear st).yearlyStats = st.yearlyStats ∧
    (calculatePeakYear st).topRepositories = st.topRepositories ∧
    (calculatePeakYear st).longTermRepositories = st.longTermRepositories ∧
    (calculatePeakYear st).prToReviewRatio = st.prToReviewRatio ∧
    (calculatePeakYear st).roleTransition = st.roleTransition := by
  unfold calculatePeakYear
  rw [foldl_peakStep_eq]
  simp

theorem calculateRepositoryStatistics_eq (st : UserStatistics) (all : List Activity) :
    calculateRepositoryStatistics st all =
      { st with
        topRepositories := selectTopRepositories (aggregateRepositoryActivities all),
        longTermRepositories :=
          findLongTermRepositories (selectTopRepositories (aggregateRepositoryActivities all)) } :=
  rfl

theorem analyzeContinuityAndCareer_eq (st : UserStatistics) :
    analyzeContinuityAndCareer st =
      { st with roleTransition := st.roleTransition ++ roleTransitionPoints st.yearlyStats } :=
  rfl

theorem CalculateStatistics_yearlyStats (data : UserActivityData) :
    (CalculateStatistics data).yearlyStats = yearlyStatsOf data := by
  unfold CalculateStatistics
  rw [analyzeContinuityAndCareer_eq, calculateRepositoryStatistics_eq,
    calculateYearlyStatistics_eq]
  simp only
  rw [(calculatePeakYear_proj _).2.2.2.1]
  simp [yearlyStatsOf, yearlyMapsOf]

theorem CalculateStatistics_totalCommits (data : UserActivityData) :
    (CalculateStatistics data).totalCommits = data.commits.length := by
  unfold CalculateStatistics
  rw [analyzeContinuityAndCareer_eq, calculateRepositoryStatistics_eq,
    calculateYearlyStatistics_eq]
  simp only
  rw [(calculatePeakYear_proj _).1]
  simp [(calculateBasicStatistics_proj _ _ _).1]

theorem CalculateStatistics_topRepositories (data : UserActivityData) :
    (CalculateStatistics data).topRepositories =
      selectTopRepositories (aggregateRepositoryActivities (allActivitiesOf data)) := by
  unfold CalculateStatistics
  rw [analyzeContinuityAndCareer_eq, calculateRepositoryStatistics_eq]

theorem CalculateStatistics_longTermRepositories (data : UserActivityData) :
    (CalculateStatistics data).longTermRepositories =
      findLongTermRepositories
        (selectTopRepositories (aggregateRepositoryActivities (allActivitiesOf data))) := by
  unfold CalculateStatistics
  rw [analyzeContinuityAndCareer_eq, calculateRepositoryStatistics_eq]

theorem CalculateStatistics_roleTransition (data : UserActivityData) :
    (CalculateStatistics data).roleTransition = roleTransitionPoints (yearlyStatsOf data) := by
  unfold CalculateStatistics
  rw [analyzeContinuityAndCareer_eq, calculateRepositoryStatistics_eq,
    calculateYearlyStatistics_eq]
  simp only
  rw [(calculatePeakYear_proj _).2.2.2.2.2.2.2, (calculatePeakYear_proj _).2.2.2.1]
  simp [(calculateBasicStatistics_proj _ _ _).2.2.2.2.2.2.2.1, yearlyStatsOf, yearlyMapsOf,
    NewUserStatistics]

theorem CalculateStatistics_ratio_of_no_prs (data : UserActivityData) (h : data.prs = []) :
    (CalculateStatistics data).prToReviewRatio = 0 := by
  unfold CalculateStatistics
  rw [analyzeContinuityAndCareer_eq, calculateRepositoryStatistics_eq,
    calculateYearlyStatistics_eq]
  simp only
  rw [(calculatePeakYear_proj _).2.2.2.2.2.2.1]
  simp [calculateBasicStatistics_ratio_of_no_prs _ _ _ h, NewUserStatistics]

/-! ### Claim theorems -/

theorem sorted_selectTopRepositories (repoMap : List (String × RepositoryActivity)) :
    List.Sorted (fun a b : RepositoryActivity => b.commitCount ≤ a.commitCount)
      (selectTopRepositories repoMap) := by
  haveI : IsTotal RepositoryActivity (fun a b => b.commitCount ≤ a.commitCount) :=
    ⟨fun a b => le_total b.commitCount a.commitCount⟩
  haveI : IsTrans RepositoryActivity (fun a b => b.commitCount ≤ a.commitCount) :=
    ⟨fun _ _ _ hab hbc => le_trans hbc hab⟩
  have hs := List.sorted_insertionSort
    (fun a b : RepositoryActivity => b.commitCount ≤ a.commitCount) (repoMap.map (·.2))
  exact List.Pairwise.sublist (List.take_sublist 3 _) hs

/-- C5: for every input activity list, after aggregation `TopRepositories`
has length at most 3 and is sorted by commit count in descending order. -/
theorem C5_topRepositories_len_sorted (data : UserActivityData) :
    (CalculateStatistics data).topRepositories.length ≤ 3 ∧
      List.Sorted (fun a b : RepositoryActivity => b.commitCount ≤ a.commitCount)
        (CalculateStatistics data).topRepositories := by
  rw [CalculateStatistics_topRepositories]
  refine ⟨?_, sorted_selectTopRepositories _⟩
  simp [selectTopRepositories]

/-- C4: for every input activity list, after aggregation
`LongTermRepositories` is a subset of `TopRepositories` (not of the full
repository universe), every element's tenure (last-seen minus first-seen)
is at least 365 days (365×24 hours, in nanoseconds), and the list is sorted
by tenure descending. -/
theorem C4_longTermRepositories (data : UserActivityData) :
    (∀ r ∈ (CalculateStatistics data).longTermRepositories,
        r ∈ (CalculateStatistics data).topRepositories ∧ oneYearNs ≤ repoTenure r) ∧
      List.Sorted (fun a b : RepositoryActivity => repoTenure b ≤ repoTenure a)
        (CalculateStatistics data).longTermRepositories := by
  rw [CalculateStatistics_longTermRepositories, CalculateStatistics_topRepositories]
  constructor
  · intro r hr
    have hmem : r ∈ (selectTopRepositories
        (aggregateRepositoryActivities (allActivitiesOf data))).filter
          (fun repo => decide (oneYearNs ≤ repoTenure repo)) :=
      (List.perm_insertionSort _ _).mem_iff.mp hr
    have := List.mem_filter.mp hmem
    exact ⟨this.1, of_decide_eq_true this.2⟩
  · haveI : IsTotal RepositoryActivity (fun a b => repoTenure b ≤ repoTenure a) :=
      ⟨fun a b => le_total (repoTenure b) (repoTenure a)⟩
    haveI : IsTrans RepositoryActivity (fun a b => repoTenure b ≤ repoTenure a) :=
      ⟨fun _ _ _ hab hbc => le_trans hbc hab⟩
    exact List.sorted_insertionSort _ _

/-- C7: for every user whose total count of pull requests created is 0, the
computed PR-to-review ratio is exactly 0, and each per-year ratio is 0 when
that year's PRs-created count is 0 (total functions in the model: no error,
`NaN`, or undefined value exists). -/
theorem C7_zero_pr_ratio (data : UserActivityData) :
    (data.prs = [] → (CalculateStatistics data).prToReviewRatio = 0) ∧
      ∀ p ∈ (CalculateStatistics data).roleTransition, p.prCreated = 0 → p.ratio = 0 := by
  constructor
  · exact CalculateStatistics_ratio_of_no_prs data
  · intro p hp hpr
    rw [CalculateStatistics_roleTransition] at hp
    obtain ⟨y, _, rfl⟩ := List.mem_map.mp hp
    simp only [roleTransitionPointOfYear] at hpr ⊢
    simp [hpr]

theorem mapKeys_buildYearlyStats (years : List Int) (maps : YearlyMaps) :
    mapKeys (buildYearlyStats years maps) = years := by
  simp [mapKeys, buildYearlyStats, List.map_map]
  exact List.map_id years

theorem mem_foldl_insertYear (l acc : List Int) (y : Int) :
    y ∈ l.foldl (fun acc y => if y ∈ acc then acc else acc ++ [y]) acc ↔
      y ∈ acc ∨ y ∈ l := by
  induction l generalizing acc with
  | nil => simp
  | cons a t ih =>
    by_cases h : a ∈ acc
    · simp only [List.foldl_cons, if_pos h, ih]
      constructor
      · rintro (hy | hy)
        · exact Or.inl hy
        · exact Or.inr (List.mem_cons_of_mem a hy)
      · rintro (hy | hy)
        · exact Or.inl hy
        · rcases List.mem_cons.mp hy with rfl | hy
          · exact Or.inl h
          · exact Or.inr hy
    · simp only [List.foldl_cons, if_neg h, ih, List.mem_append, List.mem_singleton,
        List.mem_cons]
      tauto

theorem nodup_foldl_insertYear (l acc : List Int) (hnd : acc.Nodup) :
    (l.foldl (fun acc y => if y ∈ acc then acc else acc ++ [y]) acc).Nodup := by
  induction l generalizing acc with
  | nil => exact hnd
  | cons a t ih =>
    by_cases h : a ∈ acc
    · simpa [h] using ih acc hnd
    · simp only [List.foldl_cons, if_neg h]
      exact ih _ (by simp [List.nodup_append, hnd, h])

theorem collectAllYears_nodup (maps : YearlyMaps) : (collectAllYears maps).Nodup :=
  nodup_foldl_insertYear _ [] List.nodup_nil

theorem mem_collectAllYears (maps : YearlyMaps) (y : Int) :
    y ∈ collectAllYears maps ↔
      y ∈ mapKeys maps.yearlyCommits ∨ y ∈ mapKeys maps.yearlyPRCreated ∨
        y ∈ mapKeys maps.yearlyIssues ∨ y ∈ mapKeys maps.yearlyReviews := by
  unfold collectAllYears
  rw [mem_foldl_insertYear]
  simp [or_assoc]

/-- The classification of `generateRoleDescription` is the specification's
first-matching-rule table over `(PRs-created, reviews, ratio)`. -/
theorem generateRoleDescription_eq_claim_table (p r : Nat) (ratio : Rat) :
    generateRoleDescription p r ratio =
      if p = 0 ∧ r = 0 then "活動なし"
      else if p = 0 ∧ 0 < r then "レビュー中心の活動"
      else if 0 < p ∧ r = 0 then "開発中心の活動"
      else if ratio < (1 : Rat) / 2 then "開発中心、レビューも実施"
      else if ratio < 1 then "開発とレビューのバランス"
      else if ratio < 2 then "レビュー重視の活動"
      else "レビュー中心、チーム品質向上に貢献" := by
  unfold generateRoleDescription generateRoleDescriptionForNoActivity
  by_cases hp : p = 0 <;> by_cases hr : r = 0 <;>
    simp [hp, hr, Nat.pos_of_ne_zero, generateRoleDescriptionByRatio]

/-- C3: for every year present in the yearly rollup, taken ascending, the
aggregation emits exactly one `RoleTransitionPoint` whose ratio is
`yearlyReviews / yearlyPRCreated` (0 when `yearlyPRCreated` is 0) and whose
description follows the fixed first-matching-rule table (the code's strings
for the spec's categories: no activity = `活動なし`, review-focused
activity = `レビュー中心の活動`, development-focused activity =
`開発中心の活動`, development-focused some reviewing =
`開発中心、レビューも実施`, balanced = `開発とレビューのバランス`,
review-weighted = `レビュー重視の活動`, review-focused strong quality =
`レビュー中心、チーム品質向上に貢献`). -/
theorem C3_role_transition (data : UserActivityData) :
    ((CalculateStatistics data).roleTransition.map (·.year)).Perm
        (mapKeys (CalculateStatistics data).yearlyStats) ∧
      (mapKeys (CalculateStatistics data).yearlyStats).Nodup ∧
      List.Sorted (· ≤ ·) ((CalculateStatistics data).roleTransition.map (·.year)) ∧
      ∀ p ∈ (CalculateStatistics data).roleTransition,
        p.prCreated =
            (mapGetD (CalculateStatistics data).yearlyStats p.year
              (NewYearlyStatistics p.year)).prCreated ∧
          p.reviewCount =
            (mapGetD (CalculateStatistics data).yearlyStats p.year
              (NewYearlyStatistics p.year)).reviewCount ∧
          p.ratio = (if 0 < p.prCreated then (p.reviewCount : Rat) / (p.prCreated : Rat)
            else 0) ∧
          p.description =
            (if p.prCreated = 0 ∧ p.reviewCount = 0 then "活動なし"
             else if p.prCreated = 0 ∧ 0 < p.reviewCount then "レビュー中心の活動"
             else if 0 < p.prCreated ∧ p.reviewCount = 0 then "開発中心の活動"
             else if p.ratio < (1 : Rat) / 2 then "開発中心、レビューも実施"
             else if p.ratio < 1 then "開発とレビューのバランス"
             else if p.ratio < 2 then "レビュー重視の活動"
             else "レビュー中心、チーム品質向上に貢献") := by
  rw [CalculateStatistics_roleTransition, CalculateStatistics_yearlyStats]
  have hyears : (roleTransitionPoints (yearlyStatsOf data)).map (·.year) =
      List.insertionSort (fun a b : Int => a ≤ b) (mapKeys (yearlyStatsOf data)) := by
    simp only [roleTransitionPoints, List.map_map]
    have h : ((fun x : RoleTransitionPoint => x.year) ∘
        roleTransitionPointOfYear (yearlyStatsOf data)) = fun y => y :=
      funext fun y => rfl
    rw [h]
    exact List.map_id _
  refine ⟨?_, ?_, ?_, ?_⟩
  · rw [hyears]
    exact List.perm_insertionSort _ _
  · rw [show mapKeys (yearlyStatsOf data) = collectAllYears (yearlyMapsOf data) from
      mapKeys_buildYearlyStats _ _]
    exact collectAllYears_nodup _
  · rw [hyears]
    exact List.sorted_insertionSort _ _
  · intro p hp
    obtain ⟨y, _, rfl⟩ := List.mem_map.mp (by simpa [roleTransitionPoints] using hp)
    refine ⟨rfl, rfl, rfl, ?_⟩
    simp only [roleTransitionPointOfYear]
    exact generateRoleDescription_eq_claim_table _ _ _

theorem mapGetD_bumpFold (l : List Int) (m : List (Int × Nat)) (y : Int) :
    mapGetD (l.foldl bumpYear m) y 0 = mapGetD m y 0 + l.count y := by
  induction l generalizing m with
  | nil => simp
  | cons a t ih =>
    rw [List.foldl_cons, ih, bumpYear, mapGetD_mapUpd]
    by_cases h : y = a
    · subst h
      simp [List.count_cons]
      omega
    · simp [List.count_cons, h, Ne.symm h]

theorem mem_mapKeys_bumpFold (l : List Int) (m : List (Int × Nat)) (y : Int) :
    y ∈ mapKeys (l.foldl bumpYear m) ↔ y ∈ mapKeys m ∨ y ∈ l := by
  induction l generalizing m with
  | nil => simp
  | cons a t ih =>
    rw [List.foldl_cons, ih, bumpYear, mem_mapKeys_mapUpd]
    simp [or_assoc]

theorem sum_map_indicator_eq_zero (years : List Int) (a : Int) (ha : a ∉ years) :
    (years.map (fun y => if a == y then 1 else 0)).sum = 0 := by
  induction years with
  | nil => rfl
  | cons b ys ih =>
    have hb : ¬ (a == b) = true := by
      simp only [beq_iff_eq]
      intro h
      exact ha (h ▸ List.mem_cons_self b ys)
    simp only [List.map_cons, List.sum_cons, if_neg hb]
    rw [ih (fun h => ha (List.mem_cons_of_mem b h))]

theorem sum_map_indicator_eq_one (years : List Int) (a : Int) (hnd : years.Nodup)
    (ha : a ∈ years) : (years.map (fun y => if a == y then 1 else 0)).sum = 1 := by
  induction years with
  | nil => cases ha
  | cons b ys ih =>
    rcases List.mem_cons.mp ha with rfl | ha'
    · simp only [List.map_cons, List.sum_cons, beq_self_eq_true, if_pos]
      rw [sum_map_indicator_eq_zero ys a (List.nodup_cons.mp hnd).1]
    · have hb : ¬ (a == b) = true := by
        simp only [beq_iff_eq]
        rintro rfl
        exact (List.nodup_cons.mp hnd).1 ha'
      simp only [List.map_cons, List.sum_cons, if_neg hb]
      rw [ih (List.nodup_cons.mp hnd).2 ha']

theorem sum_map_add_nat {α : Type} (l : List α) (f g : α → Nat) :
    (l.map (fun x => f x + g x)).sum = (l.map f).sum + (l.map g).sum := by
  induction l with
  | nil => rfl
  | cons a t ih =>
    simp [ih]
    omega

theorem sum_count_over_superset (l years : List Int) (hnd : years.Nodup)
    (hsub : ∀ x ∈ l, x ∈ years) :
    (years.map (fun y => l.count y)).sum = l.length := by
  induction l with
  | nil => simp
  | cons a t ih =>
    have hcount : ∀ y : Int, (a :: t).count y = t.count y + (if a == y then 1 else 0) := by
      intro y
      simp [List.count_cons]
    have hmap : years.map (fun y => (a :: t).count y) =
        years.map (fun y => t.count y + (if a == y then 1 else 0)) :=
      List.map_congr_left (fun y _ => hcount y)
    rw [hmap, sum_map_add_nat, ih (fun x hx => hsub x (List.mem_cons_of_mem a hx)),
      sum_map_indicator_eq_one years a hnd (hsub a (List.mem_cons_self a t))]
    simp

/-- C6: for every non-empty activity list, the sum over all years of the
yearly rollup's commit counts equals the total commit count. -/
theorem C6_yearly_commit_sum (data : UserActivityData) (_h : allActivitiesOf data ≠ []) :
    ((CalculateStatistics data).yearlyStats.map (fun e => e.2.commitCount)).sum =
      (CalculateStatistics data).totalCommits := by
  rw [CalculateStatistics_yearlyStats, CalculateStatistics_totalCommits]
  unfold yearlyStatsOf
  have hmap : ((buildYearlyStats (collectAllYears (yearlyMapsOf data))
      (yearlyMapsOf data)).map (fun e => e.2.commitCount)) =
      (collectAllYears (yearlyMapsOf data)).map
        (fun y => mapGetD (yearlyMapsOf data).yearlyCommits y 0) := by
    simp only [buildYearlyStats, List.map_map]
    rfl
  rw [hmap]
  have hyc : (yearlyMapsOf data).yearlyCommits =
      (data.commits.map (fun c => c.date.year)).foldl bumpYear [] := by
    simp [yearlyMapsOf, aggregateYearlyData, List.foldl_map]
  have hget : ∀ y, mapGetD (yearlyMapsOf data).yearlyCommits y 0 =
      (data.commits.map (fun c => c.date.year)).count y := by
    intro y
    rw [hyc, mapGetD_bumpFold]
    simp [mapGetD]
  have hmap2 : (collectAllYears (yearlyMapsOf data)).map
      (fun y => mapGetD (yearlyMapsOf data).yearlyCommits y 0) =
      (collectAllYears (yearlyMapsOf data)).map
        (fun y => (data.commits.map (fun c => c.date.year)).count y) :=
    List.map_congr_left (fun y _ => hget y)
  have hsub : ∀ x ∈ data.commits.map (fun c => c.date.year),
      x ∈ collectAllYears (yearlyMapsOf data) := by
    intro x hx
    rw [mem_collectAllYears]
    left
    rw [hyc, mem_mapKeys_bumpFold]
    exact Or.inr hx
  rw [hmap2, sum_count_over_superset _ _ (collectAllYears_nodup _) hsub, List.length_map]

theorem foldl_peakStep_zero (l : List (Int × YearlyStatistics)) (acc : Nat × UserStatistics)
    (hz : ∀ e ∈ l, e.2.commitCount = 0) : l.foldl peakStep acc = acc := by
  induction l generalizing acc with
  | nil => rfl
  | cons e t ih =>
    have he : e.2.commitCount = 0 := hz e (List.mem_cons_self e t)
    have hstep : peakStep acc e = acc := by
      simp [peakStep, he]
    rw [List.foldl_cons, hstep]
    exact ih acc (fun x hx => hz x (List.mem_cons_of_mem e hx))

/-- C10: for every input whose activity list contains no commit activities
but has activities of other kinds, the yearly map is non-empty while the
peak scan — strict greater-than against an initial maximum of 0 — never
fires, so `PeakActivityYear` and `PeakActivityCommits` both stay 0. -/
theorem C10_peak_zero_without_commits (data : UserActivityData)
    (hc : data.commits = [])
    (hne : data.prs ≠ [] ∨ data.issues ≠ [] ∨ data.reviews ≠ []) :
    (CalculateStatistics data).yearlyStats ≠ [] ∧
      (CalculateStatistics data).peakActivityYear = 0 ∧
      (CalculateStatistics data).peakActivityCommits = 0 := by
  have hz : ∀ e ∈ buildYearlyStats (collectAllYears (yearlyMapsOf data)) (yearlyMapsOf data),
      e.2.commitCount = 0 := by
    intro e he
    obtain ⟨y, _, rfl⟩ := List.mem_map.mp he
    simp [yearlyMapsOf, aggregateYearlyData, hc, mapGetD]
  refine ⟨?_, ?_⟩
  · rw [CalculateStatistics_yearlyStats]
    have hy : ∃ y, y ∈ collectAllYears (yearlyMapsOf data) := by
      rcases hne with hp | hi | hr
      · obtain ⟨a, ha⟩ := List.exists_mem_of_ne_nil data.prs hp
        refine ⟨a.date.year, (mem_collectAllYears _ _).mpr (Or.inr (Or.inl ?_))⟩
        have : (yearlyMapsOf data).yearlyPRCreated =
            (data.prs.map (fun x => x.date.year)).foldl bumpYear [] := by
          simp [yearlyMapsOf, aggregateYearlyData, List.foldl_map]
        rw [this, mem_mapKeys_bumpFold]
        exact Or.inr (List.mem_map.mpr ⟨a, ha, rfl⟩)
      · obtain ⟨a, ha⟩ := List.exists_mem_of_ne_nil data.issues hi
        refine ⟨a.date.year, (mem_collectAllYears _ _).mpr (Or.inr (Or.inr (Or.inl ?_)))⟩
        have : (yearlyMapsOf data).yearlyIssues =
            (data.issues.map (fun x => x.date.year)).foldl bumpYear [] := by
          simp [yearlyMapsOf, aggregateYearlyData, List.foldl_map]
        rw [this, mem_mapKeys_bumpFold]
        exact Or.inr (List.mem_map.mpr ⟨a, ha, rfl⟩)
      · obtain ⟨a, ha⟩ := List.exists_mem_of_ne_nil data.reviews hr
        refine ⟨a.date.year, (mem_collectAllYears _ _).mpr (Or.inr (Or.inr (Or.inr ?_)))⟩
        have : (yearlyMapsOf data).yearlyReviews =
            (data.reviews.map (fun x => x.date.year)).foldl bumpYear [] := by
          simp [yearlyMapsOf, aggregateYearlyData, List.foldl_map]
        rw [this, mem_mapKeys_bumpFold]
        exact Or.inr (List.mem_map.mpr ⟨a, ha, rfl⟩)
    obtain ⟨y, hy⟩ := hy
    have : y ∈ mapKeys (yearlyStatsOf data) := by
      rw [yearlyStatsOf, mapKeys_buildYearlyStats]
      exact hy
    intro hnil
    rw [yearlyStatsOf] at hnil
    rw [yearlyStatsOf, hnil] at this
    cases this
  · unfold CalculateStatistics
    rw [analyzeContinuityAndCareer_eq, calculateRepositoryStatistics_eq,
      calculateYearlyStatistics_eq]
    simp only
    unfold calculatePeakYear
    rw [foldl_peakStep_zero _ _ (by simpa [yearlyMapsOf, allActivitiesOf] using hz)]
    constructor
    · simp [(calculateBasicStatistics_proj _ _ _).2.2.2.2.2.2.2.2.1, NewUserStatistics]
    · simp [(calculateBasicStatistics_proj _ _ _).2.2.2.2.2.2.2.2.2, NewUserStatistics]

theorem foldActivityIntoRepo_firstActivity (r : RepositoryActivity) (a : Activity) :
    (foldActivityIntoRepo r a).firstActivity =
      if a.date.instant < r.firstActivity.instant then a.date else r.firstActivity := by
  unfold foldActivityIntoRepo
  cases a.type <;>
    simp only [GoTime.before, GoTime.after] <;>
    split_ifs <;>
    simp_all

theorem foldActivityIntoRepo_lastActivity (r : RepositoryActivity) (a : Activity) :
    (foldActivityIntoRepo r a).lastActivity =
      if r.lastActivity.instant < a.date.instant then a.date else r.lastActivity := by
  unfold foldActivityIntoRepo
  cases a.type <;>
    simp only [GoTime.before, GoTime.after] <;>
    split_ifs <;>
    simp_all

theorem foldRepo_first (l : List Activity) (r0 : RepositoryActivity) :
    ((l.foldl foldActivityIntoRepo r0).firstActivity = r0.firstActivity ∨
        (l.foldl foldActivityIntoRepo r0).firstActivity ∈ l.map (·.date)) ∧
      (l.foldl foldActivityIntoRepo r0).firstActivity.instant ≤ r0.firstActivity.instant ∧
      ∀ a ∈ l, (l.foldl foldActivityIntoRepo r0).firstActivity.instant ≤ a.date.instant := by
  induction l generalizing r0 with
  | nil => exact ⟨Or.inl rfl, le_refl _, fun a ha => absurd ha (List.not_mem_nil a)⟩
  | cons a t ih =>
    have hfirst := foldActivityIntoRepo_firstActivity r0 a
    obtain ⟨ihmem, ihle, ihall⟩ := ih (foldActivityIntoRepo r0 a)
    rw [List.foldl_cons]
    have hle1 : (foldActivityIntoRepo r0 a).firstActivity.instant ≤
        r0.firstActivity.instant := by
      rw [hfirst]
      split_ifs with h
      · exact le_of_lt h
      · exact le_refl _
    have hlea : (foldActivityIntoRepo r0 a).firstActivity.instant ≤ a.date.instant := by
      rw [hfirst]
      split_ifs with h
      · exact le_refl _
      · omega
    refine ⟨?_, le_trans ihle hle1, ?_⟩
    · rcases ihmem with heq | hmem
      · rw [heq, hfirst]
        split_ifs
        · exact Or.inr (by simp)
        · exact Or.inl rfl
      · exact Or.inr (by simp [List.mem_cons]; right; simpa using hmem)
    · intro x hx
      rcases List.mem_cons.mp hx with rfl | hx'
      · exact le_trans ihle hlea
      · exact ihall x hx'

theorem foldRepo_last (l : List Activity) (r0 : RepositoryActivity) :
    ((l.foldl foldActivityIntoRepo r0).lastActivity = r0.lastActivity ∨
        (l.foldl foldActivityIntoRepo r0).lastActivity ∈ l.map (·.date)) ∧
      r0.lastActivity.instant ≤ (l.foldl foldActivityIntoRepo r0).lastActivity.instant ∧
      ∀ a ∈ l, a.date.instant ≤ (l.foldl foldActivityIntoRepo r0).lastActivity.instant := by
  induction l generalizing r0 with
  | nil => exact ⟨Or.inl rfl, le_refl _, fun a ha => absurd ha (List.not_mem_nil a)⟩
  | cons a t ih =>
    have hlast := foldActivityIntoRepo_lastActivity r0 a
    obtain ⟨ihmem, ihle, ihall⟩ := ih (foldActivityIntoRepo r0 a)
    rw [List.foldl_cons]
    have hle1 : r0.lastActivity.instant ≤
        (foldActivityIntoRepo r0 a).lastActivity.instant := by
      rw [hlast]
      split_ifs with h
      · exact le_of_lt h
      · exact le_refl _
    have hlea : a.date.instant ≤ (foldActivityIntoRepo r0 a).lastActivity.instant := by
      rw [hlast]
      split_ifs with h
      · exact le_refl _
      · omega
    refine ⟨?_, le_trans hle1 ihle, ?_⟩
    · rcases ihmem with heq | hmem
      · rw [heq, hlast]
        split_ifs
        · exact Or.inr (by simp)
        · exact Or.inl rfl
      · exact Or.inr (by simp [List.mem_cons]; right; simpa using hmem)
    · intro x hx
      rcases List.mem_cons.mp hx with rfl | hx'
      · exact le_trans hlea ihle
      · exact ihall x hx'

theorem foldRepo_first_le_last (l : List Activity) (r0 : RepositoryActivity)
    (h : r0.firstActivity.instant ≤ r0.lastActivity.instant) :
    (l.foldl foldActivityIntoRepo r0).firstActivity.instant ≤
      (l.foldl foldActivityIntoRepo r0).lastActivity.instant := by
  induction l generalizing r0 with
  | nil => exact h
  | cons a t ih =>
    rw [List.foldl_cons]
    refine ih (foldActivityIntoRepo r0 a) ?_
    rw [foldActivityIntoRepo_firstActivity, foldActivityIntoRepo_lastActivity]
    split_ifs <;> omega

/-- Per-key view of one `aggregateRepositoryActivities` iteration. -/
def entryStep : Option RepositoryActivity → Activity → Option RepositoryActivity
  | none, a => some (foldActivityIntoRepo (newRepoEntry a.repository a.date) a)
  | some r, a => some (foldActivityIntoRepo r a)

theorem mapFind?_foldl_repoStep (l : List Activity) (m : List (String × RepositoryActivity))
    (k : String) :
    mapFind? (l.foldl repoStep m) k =
      (l.filter (fun a => decide (a.repository = k))).foldl entryStep (mapFind? m k) := by
  induction l generalizing m with
  | nil => rfl
  | cons a t ih =>
    rw [List.foldl_cons, ih]
    by_cases hk : a.repository = k
    · have hfind : mapFind? (repoStep m a) k = entryStep (mapFind? m k) a := by
        rw [repoStep, mapFind?_mapUpd]
        rw [if_pos hk.symm]
        cases hfound : mapFind? m a.repository with
        | none =>
          rw [← hk, hfound]
          rfl
        | some r =>
          rw [← hk, hfound]
          rfl
      rw [hfind, List.filter_cons, if_pos (by simpa using hk), List.foldl_cons]
    · have hfind : mapFind? (repoStep m a) k = mapFind? m k := by
        rw [repoStep, mapFind?_mapUpd, if_neg (fun h => hk h.symm)]
      rw [hfind, List.filter_cons, if_neg (by simpa using hk)]

theorem foldl_entryStep_some (t : List Activity) (r : RepositoryActivity) :
    t.foldl entryStep (some r) = some (t.foldl foldActivityIntoRepo r) := by
  induction t generalizing r with
  | nil => rfl
  | cons a t ih => rw [List.foldl_cons, List.foldl_cons, entryStep, ih]

theorem mapFind?_agg (l : List Activity) (k : String) :
    mapFind? (aggregateRepositoryActivities l) k =
      match l.filter (fun a => decide (a.repository = k)) with
      | [] => none
      | a :: t =>
        some (t.foldl foldActivityIntoRepo
          (foldActivityIntoRepo (newRepoEntry a.repository a.date) a)) := by
  rw [aggregateRepositoryActivities, mapFind?_foldl_repoStep]
  cases hf : l.filter (fun a => decide (a.repository = k)) with
  | nil => rfl
  | cons a t =>
    rw [List.foldl_cons]
    exact foldl_entryStep_some t _

theorem agg_keys_nodup (l : List Activity) :
    (mapKeys (aggregateRepositoryActivities l)).Nodup := by
  rw [aggregateRepositoryActivities]
  have : ∀ m : List (String × RepositoryActivity), (mapKeys m).Nodup →
      (mapKeys (l.foldl repoStep m)).Nodup := by
    induction l with
    | nil => exact fun m h => h
    | cons a t ih =>
      intro m h
      rw [List.foldl_cons]
      exact ih _ (mapKeys_nodup_mapUpd _ _ _ _ h)
  exact this [] List.nodup_nil

/-- The dates of the activities of `l` that belong to repository `k`. -/
def datesOfKey (l : List Activity) (k : String) : List GoTime :=
  (l.filter (fun a => decide (a.repository = k))).map (·.date)

theorem newEntry_fold_first (a : Activity) :
    (foldActivityIntoRepo (newRepoEntry a.repository a.date) a).firstActivity = a.date := by
  rw [foldActivityIntoRepo_firstActivity]
  simp [newRepoEntry]

theorem newEntry_fold_last (a : Activity) :
    (foldActivityIntoRepo (newRepoEntry a.repository a.date) a).lastActivity = a.date := by
  rw [foldActivityIntoRepo_lastActivity]
  simp [newRepoEntry]

theorem agg_entry_minmax (l : List Activity) (k : String) (r : RepositoryActivity)
    (h : mapFind? (aggregateRepositoryActivities l) k = some r) :
    (r.firstActivity ∈ datesOfKey l k ∧
        ∀ d ∈ datesOfKey l k, r.firstActivity.instant ≤ d.instant) ∧
      (r.lastActivity ∈ datesOfKey l k ∧
        ∀ d ∈ datesOfKey l k, d.instant ≤ r.lastActivity.instant) := by
  rw [mapFind?_agg] at h
  unfold datesOfKey
  cases hf : l.filter (fun a => decide (a.repository = k)) with
  | nil => rw [hf] at h; cases h
  | cons a t =>
    rw [hf] at h
    have hr : r = t.foldl foldActivityIntoRepo
        (foldActivityIntoRepo (newRepoEntry a.repository a.date) a) := by
      cases h
      rfl
    subst hr
    obtain ⟨hm1, hl1, hall1⟩ := foldRepo_first t
      (foldActivityIntoRepo (newRepoEntry a.repository a.date) a)
    obtain ⟨hm2, hl2, hall2⟩ := foldRepo_last t
      (foldActivityIntoRepo (newRepoEntry a.repository a.date) a)
    rw [newEntry_fold_first] at hm1 hl1
    rw [newEntry_fold_last] at hm2 hl2
    constructor
    · constructor
      · rcases hm1 with heq | hmem
        · rw [heq]
          simp
        · simp only [List.map_cons, List.mem_cons]
          exact Or.inr hmem
      · intro d hd
        rcases List.mem_cons.mp hd with rfl | hd'
        · exact hl1
        · obtain ⟨x, hx, rfl⟩ := List.mem_map.mp hd'
          exact hall1 x hx
    · constructor
      · rcases hm2 with heq | hmem
        · rw [heq]
          simp
        · simp only [List.map_cons, List.mem_cons]
          exact Or.inr hmem
      · intro d hd
        rcases List.mem_cons.mp hd with rfl | hd'
        · exact hl2
        · obtain ⟨x, hx, rfl⟩ := List.mem_map.mp hd'
          exact hall2 x hx

/-- C8: for every repository aggregate produced by folding any number of
activities in any order, first-seen ≤ last-seen; entries are initialized to
the first observed activity's timestamp; one fold step only ever decreases
first-seen and increases last-seen; and (for date-consistent inputs, i.e.
equal instants mean equal `time.Time` values, as holds for real timestamps)
the final first-seen/last-seen pair of every repository is independent of
the fold order. -/
theorem C8_first_last_fold (l l' : List Activity) (hperm : l.Perm l')
    (hcons : ∀ a ∈ l, ∀ b ∈ l, a.date.instant = b.date.instant → a.date = b.date) :
    (∀ e ∈ aggregateRepositoryActivities l,
        e.2.firstActivity.instant ≤ e.2.lastActivity.instant) ∧
      (∀ (r : RepositoryActivity) (a : Activity),
        (foldActivityIntoRepo r a).firstActivity.instant ≤ r.firstActivity.instant ∧
          r.lastActivity.instant ≤ (foldActivityIntoRepo r a).lastActivity.instant) ∧
      (∀ a : Activity,
        (foldActivityIntoRepo (newRepoEntry a.repository a.date) a).firstActivity = a.date ∧
          (foldActivityIntoRepo (newRepoEntry a.repository a.date) a).lastActivity = a.date) ∧
      (∀ k : String,
        (mapFind? (aggregateRepositoryActivities l) k).map
            (fun r => (r.firstActivity, r.lastActivity)) =
          (mapFind? (aggregateRepositoryActivities l') k).map
            (fun r => (r.firstActivity, r.lastActivity))) := by
  refine ⟨?_, ?_, ?_, ?_⟩
  · intro e he
    have hfind : mapFind? (aggregateRepositoryActivities l) e.1 = some e.2 :=
      mapFind?_eq_some_of_mem (agg_keys_nodup l) (by exact he)
    rw [mapFind?_agg] at hfind
    cases hf : l.filter (fun a => decide (a.repository = e.1)) with
    | nil => rw [hf] at hfind; cases hfind
    | cons a t =>
      rw [hf] at hfind
      have he2 : e.2 = t.foldl foldActivityIntoRepo
          (foldActivityIntoRepo (newRepoEntry a.repository a.date) a) :=
        (Option.some.inj hfind).symm
      rw [he2]
      refine foldRepo_first_le_last t _ ?_
      rw [newEntry_fold_first, newEntry_fold_last]
  · intro r a
    rw [foldActivityIntoRepo_firstActivity, foldActivityIntoRepo_lastActivity]
    constructor <;> split_ifs <;> omega
  · exact fun a => ⟨newEntry_fold_first a, newEntry_fold_last a⟩
  · intro k
    have hfperm : (l.filter (fun a => decide (a.repository = k))).Perm
        (l'.filter (fun a => decide (a.repository = k))) := hperm.filter _
    have hdperm : (datesOfKey l k).Perm (datesOfKey l' k) := hfperm.map _
    rw [mapFind?_agg, mapFind?_agg]
    cases hf : l.filter (fun a => decide (a.repository = k)) with
    | nil =>
      have hf' : l'.filter (fun a => decide (a.repository = k)) = [] := by
        have := hf ▸ hfperm
        exact this.symm.eq_nil
      rw [hf']
    | cons a t =>
      have hf' : l'.filter (fun a => decide (a.repository = k)) ≠ [] := by
        intro hnil
        rw [hf, hnil] at hfperm
        exact List.cons_ne_nil a t hfperm.eq_nil
      cases hg : l'.filter (fun a => decide (a.repository = k)) with
      | nil => exact absurd hg hf'
      | cons b u =>
        have hl : mapFind? (aggregateRepositoryActivities l) k =
            some (t.foldl foldActivityIntoRepo
              (foldActivityIntoRepo (newRepoEntry a.repository a.date) a)) := by
          rw [mapFind?_agg, hf]
        have hl' : mapFind? (aggregateRepositoryActivities l') k =
            some (u.foldl foldActivityIntoRepo
              (foldActivityIntoRepo (newRepoEntry b.repository b.date) b)) := by
          rw [mapFind?_agg, hg]
        obtain ⟨⟨hfm, hfmin⟩, ⟨hlm, hlmax⟩⟩ := agg_entry_minmax l k _ hl
        obtain ⟨⟨hfm', hfmin'⟩, ⟨hlm', hlmax'⟩⟩ := agg_entry_minmax l' k _ hl'
        simp only [Option.map_some]
        have hmemdate : ∀ d ∈ datesOfKey l k, ∃ x ∈ l, x.date = d := by
          intro d hd
          obtain ⟨x, hx, rfl⟩ := List.mem_map.mp hd
          exact ⟨x, List.mem_of_mem_filter hx, rfl⟩
        have hmemdate' : ∀ d ∈ datesOfKey l' k, ∃ x ∈ l, x.date = d := by
          intro d hd
          obtain ⟨x, hx, rfl⟩ := List.mem_map.mp hd
          exact ⟨x, hperm.symm.subset (List.mem_of_mem_filter hx), rfl⟩
        have hfirst_eq : (t.foldl foldActivityIntoRepo
            (foldActivityIntoRepo (newRepoEntry a.repository a.date) a)).firstActivity =
            (u.foldl foldActivityIntoRepo
              (foldActivityIntoRepo (newRepoEntry b.repository b.date) b)).firstActivity := by
          have h1 := hfmin _ (hdperm.symm.subset hfm')
          have h2 := hfmin' _ (hdperm.subset hfm)
          have hinst := le_antisymm h1 h2
          obtain ⟨x1, hx1, hd1⟩ := hmemdate _ hfm
          obtain ⟨x2, hx2, hd2⟩ := hmemdate' _ hfm'
          have := hcons x1 hx1 x2 hx2 (by rw [hd1, hd2]; exact hinst)
          rw [← hd1, ← hd2, this]
        have hlast_eq : (t.foldl foldActivityIntoRepo
            (foldActivityIntoRepo (newRepoEntry a.repository a.date) a)).lastActivity =
            (u.foldl foldActivityIntoRepo
              (foldActivityIntoRepo (newRepoEntry b.repository b.date) b)).lastActivity := by
          have h1 := hlmax _ (hdperm.symm.subset hlm')
          have h2 := hlmax' _ (hdperm.subset hlm)
          have hinst := le_antisymm h2 h1
          obtain ⟨x1, hx1, hd1⟩ := hmemdate _ hlm
          obtain ⟨x2, hx2, hd2⟩ := hmemdate' _ hlm'
          have := hcons x1 hx1 x2 hx2 (by rw [hd1, hd2]; exact hinst)
          rw [← hd1, ← hd2, this]
        simp [hfirst_eq, hlast_eq]

/-- C1 counterexample: a served contributions collection in which one
repository's first page reports has-next-page; `FetchCommits` (the code)
still returns only the first page, so the exhaustive walk the claim
describes disagrees with it and the second page's activity is missing. -/
theorem C1_counterexample_first_page_only :
    (RepoContributions.firstPage
        { nameWithOwner := "octo/repo",
          pages := [{ occurredAts := [{ instant := 0, year := 1970 }], hasNextPage := true },
                    { occurredAts := [{ instant := 86400000000000, year := 1970 }],
                      hasNextPage := false }] }).hasNextPage = true ∧
      FetchCommits
          [{ nameWithOwner := "octo/repo",
             pages := [{ occurredAts := [{ instant := 0, year := 1970 }], hasNextPage := true },
                       { occurredAts := [{ instant := 86400000000000, year := 1970 }],
                         hasNextPage := false }] }] ≠
        fetchCommitsSpecExhaustive
          [{ nameWithOwner := "octo/repo",
             pages := [{ occurredAts := [{ instant := 0, year := 1970 }], hasNextPage := true },
                       { occurredAts := [{ instant := 86400000000000, year := 1970 }],
                         hasNextPage := false }] }] ∧
      NewActivity .commit "octo/repo" { instant := 86400000000000, year := 1970 } 0 0 ∈
        fetchCommitsSpecExhaustive
          [{ nameWithOwner := "octo/repo",
             pages := [{ occurredAts := [{ instant := 0, year := 1970 }], hasNextPage := true },
                       { occurredAts := [{ instant := 86400000000000, year := 1970 }],
                         hasNextPage := false }] }] ∧
      NewActivity .commit "octo/repo" { instant := 86400000000000, year := 1970 } 0 0 ∉
        FetchCommits
          [{ nameWithOwner := "octo/repo",
             pages := [{ occurredAts := [{ instant := 0, year := 1970 }], hasNextPage := true },
                       { occurredAts := [{ instant := 86400000000000, year := 1970 }],
                         hasNextPage := false }] }] := by
  refine ⟨rfl, ?_, ?_, ?_⟩ <;> decide

/-- C1 amended: the flat categories (pull requests, issues) do walk their
connection to exhaustion — against any well-formed server they return every
page's nodes — but the nested categories (commits, reviews) issue a single
query and behave exactly as if each repository's connection consisted of
its first page alone: continuation pages are never requested. -/
theorem C1_amended_pagination :
    (∀ pages : List PRPage, flatPRWellFormed pages = true →
        FetchPullRequests pages = pages.flatMap (fun p => p.nodes.map mkPRActivity)) ∧
      (∀ pages : List IssuePage, flatIssueWellFormed pages = true →
        FetchIssues pages = pages.flatMap (fun p => p.nodes.map mkIssueActivity)) ∧
      (∀ server : List RepoContributions,
        FetchCommits server =
          fetchCommitsSpecExhaustive
            (server.map (fun rc =>
              { nameWithOwner := rc.nameWithOwner, pages := rc.pages.take 1 }))) ∧
      (∀ server : List RepoContributions,
        FetchReviews server =
          fetchReviewsSpecExhaustive
            (server.map (fun rc =>
              { nameWithOwner := rc.nameWithOwner, pages := rc.pages.take 1 }))) := by
  refine ⟨?_, ?_, ?_, ?_⟩
  · intro pages hwf
    induction pages with
    | nil => rfl
    | cons p rest ih =>
      simp only [flatPRWellFormed, Bool.and_eq_true, beq_iff_eq] at hwf
      rw [FetchPullRequests, List.flatMap_cons, hwf.1]
      cases rest with
      | nil => simp
      | cons q u =>
        simp only [List.isEmpty_cons, Bool.not_false, if_true]
        rw [ih hwf.2]
  · intro pages hwf
    induction pages with
    | nil => rfl
    | cons p rest ih =>
      simp only [flatIssueWellFormed, Bool.and_eq_true, beq_iff_eq] at hwf
      rw [FetchIssues, List.flatMap_cons, hwf.1]
      cases rest with
      | nil => simp
      | cons q u =>
        simp only [List.isEmpty_cons, Bool.not_false, if_true]
        rw [ih hwf.2]
  · intro server
    induction server with
    | nil => rfl
    | cons rc rest ih =>
      rw [FetchCommits, fetchCommitsSpecExhaustive] at ih ⊢
      rw [List.flatMap_cons, List.map_cons, List.flatMap_cons, ih]
      congr 1
      cases hp : rc.pages with
      | nil => simp [RepoContributions.firstPage, hp, walkContributionsToExhaustion]
      | cons p ps =>
        simp only [RepoContributions.firstPage, hp, List.take_succ_cons, List.take_zero,
          List.headD_cons, walkContributionsToExhaustion]
        cases p.hasNextPage <;> simp [walkContributionsToExhaustion]
  · intro server
    induction server with
    | nil => rfl
    | cons rc rest ih =>
      rw [FetchReviews, fetchReviewsSpecExhaustive] at ih ⊢
      rw [List.flatMap_cons, List.map_cons, List.flatMap_cons, ih]
      congr 1
      cases hp : rc.pages with
      | nil => simp [RepoContributions.firstPage, hp, walkContributionsToExhaustion]
      | cons p ps =>
        simp only [RepoContributions.firstPage, hp, List.take_succ_cons, List.take_zero,
          List.headD_cons, walkContributionsToExhaustion]
        cases p.hasNextPage <;> simp [walkContributionsToExhaustion]

/-- C2 counterexample: with a concurrent first-error-wins join (the claim's
reading), a reviews fetch failing at instant 1 would beat a commits fetch
failing at instant 10; the code's join returns the commits error regardless,
because the four fetches run one after another in a single goroutine and
errors are prioritized in the fixed order commits, PRs, issues, reviews. -/
theorem C2_counterexample_error_priority :
    FetchAllUserActivity (.error "failed to fetch commits: boom") (.ok []) (.ok [])
        (.error "failed to fetch reviews: crash") =
      .error "failed to fetch commits: boom" ∧
      specFirstErrorEncountered
          [{ result := .error "failed to fetch commits: boom", completedAt := 10 },
           { result := .ok [], completedAt := 2 },
           { result := .ok [], completedAt := 3 },
           { result := .error "failed to fetch reviews: crash", completedAt := 1 }] =
        some "failed to fetch reviews: crash" ∧
      ("failed to fetch commits: boom" : String) ≠ "failed to fetch reviews: crash" := by
  refine ⟨rfl, rfl, by decide⟩

/-- C2 amended: `FetchAllUserActivity` joins one combined record (sent once
on a single one-slot channel) whose error, on any failure, is the first
error in the fixed order commits, PRs, issues, reviews — not the first
error in completion order, since the four fetches run sequentially inside
one spawned goroutine. -/
theorem C2_amended_fixed_order_join (rc rp ri rr : Except String (List Activity)) :
    FetchAllUserActivity rc rp ri rr =
      match [errOf rc, errOf rp, errOf ri, errOf rr].findSome? id with
      | some e => .error e
      | none => .ok { commits := listOf rc, prs := listOf rp, issues := listOf ri,
                      reviews := listOf rr } := by
  cases rc <;> cases rp <;> cases ri <;> cases rr <;> rfl

theorem WaitForRateLimit_cancelled (ctx : GoCtx) (now : Int) (lastReset : Option Int)
    (tokenAt : Int → Int) (h : cancellationFiresDuringWait ctx now lastReset tokenAt) :
    ∃ e, WaitForRateLimit ctx now lastReset tokenAt = .error e ∧
      e.isCancellation = true := by
  obtain ⟨a, hca, hcase⟩ := h
  cases lastReset with
  | none =>
    have hc : a ≤ now ∨ a < tokenAt now := by
      rcases hcase with h1 | h2 | h3
      · exact Or.inl h1
      · obtain ⟨r, hr, _⟩ := h2
        cases hr
      · exact Or.inr (by simpa using h3)
    by_cases hd : a ≤ now
    · exact ⟨.rateLimiterWait,
        by simp [WaitForRateLimit, limiterWait, GoCtx.doneBy, hca, hd], rfl⟩
    · have h2 : a < tokenAt now := hc.resolve_left hd
      exact ⟨.rateLimiterWait,
        by simp [WaitForRateLimit, limiterWait, GoCtx.doneBy, hca, hd, h2], rfl⟩
  | some resetAt =>
    by_cases hnr : now < resetAt
    · by_cases har : a < resetAt
      · exact ⟨.contextCancelled, by simp [WaitForRateLimit, hca, hnr, har], rfl⟩
      · have h3 : a < tokenAt resetAt := by
          rcases hcase with h1 | h2 | h3
          · omega
          · obtain ⟨r, hr, _, hr3⟩ := h2
            injection hr with hr
            omega
          · simpa [hnr] using h3
        by_cases hd : a ≤ resetAt
        · exact ⟨.rateLimiterWait,
            by simp [WaitForRateLimit, limiterWait, GoCtx.doneBy, hca, hnr, har, hd], rfl⟩
        · exact ⟨.rateLimiterWait,
            by simp [WaitForRateLimit, limiterWait, GoCtx.doneBy, hca, hnr, har, hd, h3], rfl⟩
    · have hc : a ≤ now ∨ a < tokenAt now := by
        rcases hcase with h1 | h2 | h3
        · exact Or.inl h1
        · obtain ⟨r, hr, hr2, _⟩ := h2
          injection hr with hr
          subst hr
          exact absurd hr2 hnr
        · exact Or.inr (by simpa [hnr] using h3)
      by_cases hd : a ≤ now
      · exact ⟨.rateLimiterWait,
          by simp [WaitForRateLimit, limiterWait, GoCtx.doneBy, hca, hnr, hd], rfl⟩
      · have h2 : a < tokenAt now := hc.resolve_left hd
        exact ⟨.rateLimiterWait,
          by simp [WaitForRateLimit, limiterWait, GoCtx.doneBy, hca, hnr, hd, h2], rfl⟩

/-- C9: for every call to the gateway's `Query` whose cancellation signal
has fired — or fires while waiting out a recorded reset deadline or waiting
for the rate limiter — the call returns a cancellation-flavored error
(`context cancelled` or `rate limiter wait failed`, both wrapping
`ctx.Err()`) and the network call is never performed. -/
theorem C9_cancelled_no_network (ctx : GoCtx) (now : Int) (lastReset : Option Int)
    (tokenAt : Int → Int) (network : Int → Except String Unit)
    (h : cancellationFiresDuringWait ctx now lastReset tokenAt) :
    (Query ctx now lastReset tokenAt network).networkCalled = false ∧
      ∃ e, (Query ctx now lastReset tokenAt network).result = .error e ∧
        e.isCancellation = true := by
  obtain ⟨e, he, hc⟩ := WaitForRateLimit_cancelled ctx now lastReset tokenAt h
  unfold Query
  rw [he]
  exact ⟨rfl, e, rfl, hc⟩

/-! ### Concrete inputs for witnesses -/

/-- 1970-01-01T00:00:00Z. -/
def t1970 : GoTime := { instant := 0, year := 1970 }

/-- Exactly 365 days after `t1970`. -/
def t1971 : GoTime := { instant := 31536000000000000, year := 1971 }

def c6Data : UserActivityData :=
  { commits := [NewActivity .commit "octo/repo" t1970 0 0], prs := [], issues := [],
    reviews := [] }

def c4Data : UserActivityData :=
  { commits := [NewActivity .commit "octo/repo" t1970 0 0,
                NewActivity .commit "octo/repo" t1971 0 0],
    prs := [], issues := [], reviews := [] }

def c4Repo : RepositoryActivity :=
  { repository := "octo/repo", commitCount := 2, prCount := 0, issueCount := 0,
    reviewCount := 0, totalAdditions := 0, totalDeletions := 0,
    firstActivity := t1970, lastActivity := t1971 }

def c7Data : UserActivityData :=
  { commits := [], prs := [], issues := [],
    reviews := [{ NewActivity .review "octo/repo" t1970 0 0 with isReview := true }] }

def c7Point : RoleTransitionPoint :=
  { year := 1970, prCreated := 0, reviewCount := 1, ratio := 0,
    description := "レビュー中心の活動" }

def c3Data : UserActivityData :=
  { commits := [], prs := [], issues := [NewActivity .issue "octo/repo" t1970 0 0],
    reviews := [{ NewActivity .review "octo/repo" t1971 0 0 with isReview := true }] }

def c3Point : RoleTransitionPoint :=
  { year := 1970, prCreated := 0, reviewCount := 0, ratio := 0, description := "活動なし" }

def c8A : Activity := NewActivity .commit "octo/repo" t1970 0 0

def c8B : Activity := NewActivity .pr "octo/repo" t1971 5 2

def c10Data : UserActivityData :=
  { commits := [], prs := [], issues := [NewActivity .issue "octo/repo" t1970 0 0],
    reviews := [] }

def c1PRPages : List PRPage :=
  [{ nodes := [{ repository := "octo/repo", createdAt := t1970, mergedAt := none,
                 additions := 3, deletions := 1 }], hasNextPage := true },
   { nodes := [{ repository := "octo/repo", createdAt := t1971, mergedAt := some t1971,
                 additions := 2, deletions := 2 }], hasNextPage := false }]

def c1IssuePages : List IssuePage :=
  [{ nodes := [{ repository := "octo/repo", createdAt := t1970 }], hasNextPage := false }]

/-! ### Witnesses -/

/-- Witness for C1 (amended): a two-page pull-request connection and a
one-page issue connection, both well-formed, walked to exhaustion. -/
theorem C1_amended_pagination_witness :
    flatPRWellFormed c1PRPages = true ∧
      FetchPullRequests c1PRPages = c1PRPages.flatMap (fun p => p.nodes.map mkPRActivity) ∧
      flatIssueWellFormed c1IssuePages = true ∧
      FetchIssues c1IssuePages = c1IssuePages.flatMap (fun p => p.nodes.map mkIssueActivity) :=
  ⟨by decide, C1_amended_pagination.1 c1PRPages (by decide), by decide,
    C1_amended_pagination.2.1 c1IssuePages (by decide)⟩

/-- Witness for C3: the 1970 no-activity point of a user with one 1970
issue and one 1971 review. -/
theorem C3_role_transition_witness :
    c3Point.prCreated =
        (mapGetD (CalculateStatistics c3Data).yearlyStats c3Point.year
          (NewYearlyStatistics c3Point.year)).prCreated ∧
      c3Point.reviewCount =
        (mapGetD (CalculateStatistics c3Data).yearlyStats c3Point.year
          (NewYearlyStatistics c3Point.year)).reviewCount ∧
      c3Point.ratio =
        (if 0 < c3Point.prCreated then (c3Point.reviewCount : Rat) / (c3Point.prCreated : Rat)
         else 0) ∧
      c3Point.description =
        (if c3Point.prCreated = 0 ∧ c3Point.reviewCount = 0 then "活動なし"
         else if c3Point.prCreated = 0 ∧ 0 < c3Point.reviewCount then "レビュー中心の活動"
         else if 0 < c3Point.prCreated ∧ c3Point.reviewCount = 0 then "開発中心の活動"
         else if c3Point.ratio < (1 : Rat) / 2 then "開発中心、レビューも実施"
         else if c3Point.ratio < 1 then "開発とレビューのバランス"
         else if c3Point.ratio < 2 then "レビュー重視の活動"
         else "レビュー中心、チーム品質向上に貢献") :=
  (C3_role_transition c3Data).2.2.2 c3Point (by decide)

/-- Witness for C4: the single long-tenure repository of a user with two
commits 365 days apart is in the top list with tenure ≥ one year. -/
theorem C4_longTermRepositories_witness :
    c4Repo ∈ (CalculateStatistics c4Data).topRepositories ∧ oneYearNs ≤ repoTenure c4Repo :=
  (C4_longTermRepositories c4Data).1 c4Repo (by decide)

/-- Witness for C6: one commit in 1970. -/
theorem C6_yearly_commit_sum_witness :
    ((CalculateStatistics c6Data).yearlyStats.map (fun e => e.2.commitCount)).sum =
      (CalculateStatistics c6Data).totalCommits :=
  C6_yearly_commit_sum c6Data (by decide)

/-- Witness for C7: a user with one review and no pull requests. -/
theorem C7_zero_pr_ratio_witness :
    (CalculateStatistics c7Data).prToReviewRatio = 0 ∧ c7Point.ratio = 0 :=
  ⟨(C7_zero_pr_ratio c7Data).1 rfl,
    (C7_zero_pr_ratio c7Data).2 c7Point (by decide) (by decide)⟩

/-- Witness for C8: a commit and a pull request on one repository folded in
both orders give the same first/last pair. -/
theorem C8_first_last_fold_witness :
    (mapFind? (aggregateRepositoryActivities [c8A, c8B]) "octo/repo").map
        (fun r => (r.firstActivity, r.lastActivity)) =
      (mapFind? (aggregateRepositoryActivities [c8B, c8A]) "octo/repo").map
        (fun r => (r.firstActivity, r.lastActivity)) :=
  (C8_first_last_fold [c8A, c8B] [c8B, c8A] (by decide) (by decide)).2.2.2 "octo/repo"

/-- Witness for C9: a context cancelled at instant 5 calling the gateway at
instant 10 with no recorded reset deadline. -/
theorem C9_cancelled_no_network_witness :
    (Query { cancelAt := some 5 } 10 none (fun t => t + 7)
        (fun _ => .ok ())).networkCalled = false ∧
      ∃ e, (Query { cancelAt := some 5 } 10 none (fun t => t + 7)
          (fun _ => .ok ())).result = .error e ∧ e.isCancellation = true :=
  C9_cancelled_no_network { cancelAt := some 5 } 10 none (fun t => t + 7) (fun _ => .ok ())
    ⟨5, rfl, Or.inl (by decide)⟩

/-- Witness for C10: a user with one 1970 issue and no commits. -/
theorem C10_peak_zero_without_commits_witness :
    (CalculateStatistics c10Data).yearlyStats ≠ [] ∧
      (CalculateStatistics c10Data).peakActivityYear = 0 ∧
      (CalculateStatistics c10Data).peakActivityCommits = 0 :=
  C10_peak_zero_without_commits c10Data rfl (Or.inr (Or.inl (by decide)))
